import Mathlib

/-!
Verification of the FHD reporting core (`genesys_to_agent_template.py`).

The pipeline is embedded shallowly:

* a pandas scalar cell is `Val` (`null` models `NaN`/missing, `num` models a
  float by an exact rational, `str` a string);
* a `DataFrame` row is an association list `Row := List (String × Val)`; a
  `Table` carries the column list and the rows (pandas frames are rectangular,
  so well-formed tables satisfy `Table.WF`: each row's keys are the columns);
* `groupby`, `merge` and the template writer are explicit list programs;
* Python floats are modelled by `Rat`; the float special values `nan`/`inf`
  never arise in the modelled fragment (all call sites guard with `pd.isna`
  before converting), and string literals such as `"nan"`/`"inf"` are treated
  as parse failures by `pyFloatOfString`.
-/

set_option linter.unusedVariables false

namespace FHD

/-- A pandas scalar cell value. `null` models `NaN` (and, where a Python-level
`None` flows into a frame, missing data in general). -/
inductive Val where
  | null : Val
  | str (s : String) : Val
  | num (q : Rat) : Val
deriving DecidableEq, Repr

/-- One DataFrame row: an association list from column name to cell value. -/
abbrev Row := List (String × Val)

/-- `row.get` of pandas: the cell under a column label, `none` when the label
is absent (pandas `Series.get` returns `None` then). -/
def getv : Row → String → Option Val
  | [], _ => none
  | (k, v) :: r, c => if k = c then some v else getv r c

/-- A DataFrame: its column list and its rows. -/
structure Table where
  cols : List String
  rows : List Row
deriving DecidableEq, Repr

/-- pandas frames are rectangular: every row has exactly the table's columns. -/
def Table.WF (t : Table) : Prop :=
  ∀ r ∈ t.rows, r.map Prod.fst = t.cols

instance tableWFDecidable (t : Table) : Decidable t.WF :=
  decidable_of_iff (∀ r ∈ t.rows, r.map Prod.fst = t.cols) Iff.rfl

/-- A key occurs in a row built over column list `cs` iff it is one of the
columns. -/
theorem getv_isSome_of_wf {cs : List String} {r : Row} (h : r.map Prod.fst = cs)
    {c : String} (hc : c ∈ cs) : (getv r c).isSome := by
  induction r generalizing cs with
  | nil => subst h; simp at hc
  | cons p r ih =>
    cases p with
    | mk k v =>
      subst h
      by_cases hk : k = c
      · simp [getv, hk]
      · simp only [getv, if_neg hk]
        simp only [List.map_cons, List.mem_cons] at hc
        rcases hc with hc | hc
        · exact absurd hc.symm hk
        · exact ih rfl hc

theorem getv_eq_none_of_not_mem {cs : List String} {r : Row}
    (h : r.map Prod.fst = cs) {c : String} (hc : c ∉ cs) : getv r c = none := by
  induction r generalizing cs with
  | nil => rfl
  | cons p r ih =>
    cases p with
    | mk k v =>
      subst h
      simp only [List.map_cons, List.mem_cons, not_or] at hc
      simp only [getv, if_neg (fun h' : k = c => hc.1 h'.symm)]
      exact ih rfl hc.2

theorem getv_append (a b : Row) (c : String) :
    getv (a ++ b) c = ((getv a c).rec (getv b c) (fun v => some v)) := by
  induction a with
  | nil => rfl
  | cons p a ih =>
    cases p with
    | mk k v =>
      by_cases hk : k = c
      · simp [getv, hk]
      · simpa [getv, hk] using ih

theorem getv_append_left {a : Row} {c : String} (b : Row) {v : Val}
    (h : getv a c = some v) : getv (a ++ b) c = some v := by
  rw [getv_append, h]

theorem getv_append_right {a : Row} {c : String} (b : Row)
    (h : getv a c = none) : getv (a ++ b) c = getv b c := by
  rw [getv_append, h]

/-! ## Python / pandas scalar helpers -/

/-- `pd.isna` on the result of `row.get`: `True` for a missing column
(Python `None`) and for `NaN`. -/
def isna : Option Val → Bool
  | none => true
  | some Val.null => true
  | some _ => false

/-- Numeric value of a digit string (most significant first). -/
def digitsVal (ds : List Char) : Nat :=
  ds.foldl (fun n c => 10 * n + (c.toNat - 48)) 0

/-- Split a maximal digit prefix off a character list. -/
def takeDigits : List Char → List Char × List Char
  | [] => ([], [])
  | c :: cs =>
    if c.isDigit then
      let (ds, rest) := takeDigits cs
      (c :: ds, rest)
    else ([], c :: cs)

/-- Strip leading and trailing whitespace from a character list (Python's
`str.strip()` as `float` applies it). -/
def trimChars (cs : List Char) : List Char :=
  ((cs.dropWhile Char.isWhitespace).reverse.dropWhile Char.isWhitespace).reverse

/-- Parser piece for Python `float(str)`: mantissa `digits[.digits]` or
`.digits`, returning its rational value and the unconsumed suffix; fails when
neither an integer part nor a fractional part is present. -/
def parseMantissa (cs : List Char) : Option (Rat × List Char) :=
  let (ip, r1) := takeDigits cs
  match r1 with
  | '.' :: r2 =>
    let (fp, r3) := takeDigits r2
    if ip.isEmpty && fp.isEmpty then none
    else some ((digitsVal ip : Rat) + (digitsVal fp : Rat) / ((10 : Rat) ^ fp.length), r3)
  | _ =>
    if ip.isEmpty then none
    else some ((digitsVal ip : Rat), r1)

/-- Parser piece for an optional exponent `e[+|-]digits`. -/
def parseExp (cs : List Char) : Option (Rat × List Char) :=
  match cs with
  | 'e' :: r1 | 'E' :: r1 =>
    let (sgn, r2) : Bool × List Char :=
      match r1 with
      | '+' :: t => (false, t)
      | '-' :: t => (true, t)
      | t => (false, t)
    let (ed, r3) := takeDigits r2
    if ed.isEmpty then none
    else
      let e := digitsVal ed
      some (if sgn then 1 / (10 : Rat) ^ e else (10 : Rat) ^ e, r3)
  | _ => some (1, cs)

/-- Python `float(str)` on ordinary decimal literals: optional surrounding
whitespace, optional sign, mantissa, optional exponent; `none` models the
`ValueError` raised otherwise. Exotic accepted forms (`inf`, `nan`,
underscore separators) are not modelled — see the header note. -/
def pyFloatOfString (s : String) : Option Rat :=
  let cs := trimChars s.toList
  let (neg, cs1) : Bool × List Char :=
    match cs with
    | '+' :: t => (false, t)
    | '-' :: t => (true, t)
    | t => (false, t)
  match parseMantissa cs1 with
  | none => none
  | some (m, r1) =>
    match parseExp r1 with
    | none => none
    | some (e, r2) =>
      if r2.isEmpty then some (if neg then -(m * e) else m * e) else none

/-- Python `float(v)` on a cell value. `null` models `NaN`: `float(nan)` is
`nan` again, which every caller in the pipeline either screens out with
`pd.isna` beforehand or feeds into an `isna`/rounding check that yields the
same result as propagating `none` here. -/
def pyFloat : Val → Option Rat
  | Val.num q => some q
  | Val.str s => pyFloatOfString s
  | Val.null => none

/-- `pd.to_numeric(v, errors='coerce')`: `none` models a `NaN` result
(unparseable strings and `NaN` input). pandas accepts the same ordinary
decimal literals as `float`. -/
def toNumeric : Val → Option Rat
  | Val.num q => some q
  | Val.str s => pyFloatOfString s
  | Val.null => none

/-- Python `str(v)` on a cell value, as produced by `Series.astype(str)`:
`NaN` renders as the literal string `"nan"`, floats by their decimal
rendering (integral floats get a trailing `.0`; for non-integral values the
exact shortest-round-trip float digits are approximated by the rational's
rendering, which no claim depends on). -/
def pyStrVal : Val → String
  | Val.null => "nan"
  | Val.str s => s
  | Val.num q => if q.den = 1 then toString q.num ++ ".0" else toString q

/-! ## Time codec -/

/-- A calendar date. -/
structure Date where
  year : Nat
  month : Nat
  day : Nat
deriving DecidableEq, Repr

def isLeap (y : Nat) : Bool :=
  (y % 4 == 0 && y % 100 != 0) || (y % 400 == 0)

def daysInMonth (y m : Nat) : Nat :=
  if m = 2 then (if isLeap y then 29 else 28)
  else if m = 4 ∨ m = 6 ∨ m = 9 ∨ m = 11 then 30
  else 31

/-- Python `round` on a float with no digits: round half to even. -/
def roundHalfEven (q : Rat) : Int :=
  if q - (⌊q⌋ : Rat) < 1 / 2 then ⌊q⌋
  else if 1 / 2 < q - (⌊q⌋ : Rat) then ⌊q⌋ + 1
  else if ⌊q⌋ % 2 = 0 then ⌊q⌋ else ⌊q⌋ + 1

/-- The clock triple computed by `seconds_to_hhmmss_time` after rounding:
negative totals are floored to zero (`if s < 0: s = 0`), and an hour past 23
is clamped to `23:59:59`. -/
def clockOfInt (z : Int) : Nat × Nat × Nat :=
  let s : Nat := z.toNat
  let h := s / 3600
  let m := (s % 3600) / 60
  let sec := s % 60
  if h > 23 then (23, 59, 59) else (h, m, sec)

/-- `seconds_to_hhmmss_time`: `None` in, `None` out; `float(...)` failures
(`TypeError`/`ValueError`, including `round(nan)`) are caught and give
`None`; otherwise round to the nearest second, floor negatives to zero and
clamp to `23:59:59`. -/
def secondsToHhmmss : Option Val → Option (Nat × Nat × Nat)
  | none => none
  | some Val.null => none
  | some (Val.str s) =>
    match pyFloatOfString s with
    | none => none
    | some q => some (clockOfInt (roundHalfEven q))
  | some (Val.num q) => some (clockOfInt (roundHalfEven q))

/-- `seconds_to_excel_time`: divide by 86400, `None` for `None`, `NaN` or
non-numeric input. -/
def secondsToExcelTime : Option Val → Option Rat
  | none => none
  | some Val.null => none
  | some (Val.str s) => (pyFloatOfString s).map (fun q => q / 86400)
  | some (Val.num q) => some (q / 86400)

/-! ## `strptime` for the two interval formats

CPython's `_strptime` compiles `%d`, `%m`, `%H`, `%M` to bounded digit
alternations (`%d`: `3[01]|[12]\d|0[1-9]|[1-9]`, `%m`: `1[0-2]|0[1-9]|[1-9]`,
`%H`: `2[0-3]|[0-1]\d|\d`, `%M`: `[0-5]\d|\d`) and `%y` to exactly two
digits; a literal space matches a nonempty whitespace run, and trailing
unconverted data raises `ValueError`. Because every numeric field here is
followed by a non-digit (or the end of the string), regex backtracking never
splits a digit run: a field matches iff its whole maximal digit run is one of
the alternatives. `datetime` construction then validates the day against the
month (raising `ValueError`, which `parse_interval_date` catches). -/

/-- Whether a maximal digit run is accepted by the `_strptime` pattern for a
two-digit-max field whose two-digit values range over `lo2..hi2` and whose
one-digit values range over `lo1..9`. -/
def fieldRunOK (lo1 lo2 hi2 : Nat) (ds : List Char) : Bool :=
  (ds.length = 1 && lo1 ≤ digitsVal ds) ||
    (ds.length = 2 && lo2 ≤ digitsVal ds && digitsVal ds ≤ hi2)

/-- Consume one numeric field (maximal digit run), yielding its value. -/
def pNumField (lo1 lo2 hi2 : Nat) (cs : List Char) : Option (Nat × List Char) :=
  let (ds, rest) := takeDigits cs
  if fieldRunOK lo1 lo2 hi2 ds then some (digitsVal ds, rest) else none

/-- `%d`: 1-9 as one digit, 01-31 as two. -/
def pDay (cs : List Char) : Option (Nat × List Char) := pNumField 1 1 31 cs

/-- `%m`: 1-9 as one digit, 01-12 as two. -/
def pMonth (cs : List Char) : Option (Nat × List Char) := pNumField 1 1 12 cs

/-- `%H`: 0-9 as one digit, 00-23 as two. -/
def pHour (cs : List Char) : Option (Nat × List Char) := pNumField 0 0 23 cs

/-- `%M`: 0-9 as one digit, 00-59 as two. -/
def pMinute (cs : List Char) : Option (Nat × List Char) := pNumField 0 0 59 cs

/-- `%y`: exactly two digits; 00-68 map to 2000-2068, 69-99 to 1969-1999. -/
def pYear2 (cs : List Char) : Option (Nat × List Char) :=
  let (ds, rest) := takeDigits cs
  if ds.length = 2 then
    some ((if digitsVal ds ≤ 68 then 2000 + digitsVal ds else 1900 + digitsVal ds), rest)
  else none

/-- A literal character in the format. -/
def pLit (c : Char) (cs : List Char) : Option (List Char) :=
  match cs with
  | c' :: rest => if c' = c then some rest else none
  | [] => none

/-- A format-string space: one or more whitespace characters. -/
def pWs (cs : List Char) : Option (List Char) :=
  match cs with
  | c :: rest => if c.isWhitespace then some (pWsAux rest) else none
  | [] => none
where
  pWsAux : List Char → List Char
  | c :: rest => if c.isWhitespace then pWsAux rest else c :: rest
  | [] => []

/-- `datetime.strptime(s, fmt).date()` for the two formats of
`parse_interval_date`; `dayFirst = true` is `'%d/%m/%y %H:%M'` and
`dayFirst = false` is `'%m/%d/%y %H:%M'`. `none` models `ValueError`. -/
def strptimeDate (dayFirst : Bool) (s : String) : Option Date := do
  let cs := s.toList
  let (f1, r1) ← if dayFirst then pDay cs else pMonth cs
  let r2 ← pLit '/' r1
  let (f2, r3) ← if dayFirst then pMonth r2 else pDay r2
  let r4 ← pLit '/' r3
  let (y, r5) ← pYear2 r4
  let r6 ← pWs r5
  let (h, r7) ← pHour r6
  let r8 ← pLit ':' r7
  let (mi, r9) ← pMinute r8
  if r9.isEmpty then
    let (d, m) := if dayFirst then (f1, f2) else (f2, f1)
    if 1 ≤ d ∧ d ≤ daysInMonth y m then some ⟨y, m, d⟩ else none
  else none

/-- `parse_interval_date`: non-strings fall back to today's date; otherwise
try the day-first format, then the month-first format, then fall back. -/
def parseIntervalDate (today : Date) (v : Val) : Date :=
  match v with
  | Val.str s =>
    match strptimeDate true s with
    | some d => d
    | none =>
      match strptimeDate false s with
      | some d => d
      | none => today
  | _ => today

example : strptimeDate true "03/04/25 10:00" = some ⟨2025, 4, 3⟩ := by decide
example : strptimeDate false "03/04/25 10:00" = some ⟨2025, 3, 4⟩ := by decide
example : strptimeDate true "31/02/25 10:00" = none := by decide
example : strptimeDate true "2/3/25 9:05" = some ⟨2025, 3, 2⟩ := by decide
example : strptimeDate true "13/13/25 10:00" = none := by decide
example : strptimeDate false "12/31/25 10:00" = some ⟨2025, 12, 31⟩ := by decide
example : strptimeDate true "03/04/25 24:00" = none := by decide
example : strptimeDate true "29/02/24 00:00" = some ⟨2024, 2, 29⟩ := by decide
example : strptimeDate true "29/02/25 00:00" = none := by decide

/-! ## Aggregators -/

/-- The candidate group/join key columns, in the order the source lists them. -/
def candidateCols : List String :=
  ["Interval Start", "Agent Id", "Agent Name", "Division Name"]

def isNumV : Val → Bool
  | Val.num _ => true
  | _ => false

def isNullV : Val → Bool
  | Val.null => true
  | _ => false

def isStrV : Val → Bool
  | Val.str _ => true
  | _ => false

def numOf : Val → Rat
  | Val.num q => q
  | _ => 0

def strOf : Val → String
  | Val.str s => s
  | _ => ""

/-- pandas groupby `sum`: skips `NaN`, an empty or all-`NaN` group sums to 0;
on an object column of strings it concatenates; mixed types raise. -/
def redSum (vs : List Val) : Except String Val :=
  let nn := vs.filter (fun v => !(isNullV v))
  if nn.all isNumV then Except.ok (Val.num ((nn.map numOf).sum))
  else if nn.all isStrV then Except.ok (Val.str ((nn.map strOf).foldl (· ++ ·) ""))
  else Except.error "unsupported operand type(s) for +"

/-- pandas groupby `mean`: mean of the non-`NaN` values, `NaN` for an empty
group; raises on non-numeric data. -/
def redMean (vs : List Val) : Except String Val :=
  let nn := vs.filter (fun v => !(isNullV v))
  if nn.all isNumV then
    if nn.isEmpty then Except.ok Val.null
    else Except.ok (Val.num ((nn.map numOf).sum / (nn.length : Rat)))
  else Except.error "could not compute the mean of a non-numeric column"

/-- pandas groupby `first`: the first non-`NaN` value, `NaN` if none. -/
def redFirst (vs : List Val) : Except String Val :=
  Except.ok (((vs.filter (fun v => !(isNullV v))).head?).getD Val.null)

/-- Effectful map over a list in the `Except` monad (structural recursion;
the same semantics as `List.mapM`). -/
def mapME {ε α β : Type} (f : α → Except ε β) : List α → Except ε (List β)
  | [] => Except.ok []
  | a :: as => do
    let b ← f a
    let bs ← mapME f as
    pure (b :: bs)

/-- Effectful map over a list in the `Option` monad (structural recursion;
the same semantics as `List.mapM`). -/
def mapMO {α β : Type} (f : α → Option β) : List α → Option (List β)
  | [] => some []
  | a :: as => do
    let b ← f a
    let bs ← mapMO f as
    pure (b :: bs)

/-- The group/join key of a row under the given key columns. -/
def keyOf (gcols : List String) (r : Row) : List Val :=
  gcols.map (fun c => (getv r c).getD Val.null)

/-- The rows of one group. -/
def groupRows (gcols : List String) (rows : List Row) (k : List Val) : List Row :=
  rows.filter (fun r => decide (keyOf gcols r = k))

/-- The distinct group keys (`dropna=False`: null components are ordinary key
values). pandas emits groups sorted by key; only the set of groups matters to
the claims, so the deduplicated key list stands in for it. -/
def groupKeys (gcols : List String) (rows : List Row) : List (List Val) :=
  (rows.map (keyOf gcols)).dedup

/-- `df.groupby(gcols, dropna=False).agg(metrics).reset_index()` on the rows:
one output row per distinct key, key cells then reduced metric cells. -/
def groupAgg (gcols : List String)
    (metrics : List (String × (List Val → Except String Val)))
    (rows : List Row) : Except String (List Row) :=
  mapME (fun k => do
    let grp := groupRows gcols rows k
    let mvals ← mapME (fun p => do
      let v ← p.2 (grp.map (fun r => (getv r p.1).getD Val.null))
      pure (p.1, v)) metrics
    pure (gcols.zip k ++ mvals)) (groupKeys gcols rows)

/-- The aggregation dictionary of `aggregate_perf`, in source order. -/
def perfAggSpec : List (String × (List Val → Except String Val)) :=
  [("Answered", redSum), ("Outbound", redSum), ("Total ACW", redSum),
   ("Avg Handle", redMean), ("Total Handle", redSum)]

/-- The aggregation dictionary of `aggregate_status`, in source order. -/
def statusAggSpec : List (String × (List Val → Except String Val)) :=
  [("Logged In", redSum), ("Log In", redFirst), ("Log Out", redFirst)]

/-- Common shape of `aggregate_perf`/`aggregate_status`: group by the
candidate columns present in the table, reduce the metric columns present.
`groupby([])` raises `ValueError` in pandas, and `.agg({})` raises as well
(concatenation of no per-column results); both are modelled as errors. -/
def groupColsOf (cols : List String) : List String :=
  candidateCols.filter (fun c => cols.contains c)

def aggregateGeneric (spec : List (String × (List Val → Except String Val)))
    (t : Table) : Except String Table :=
  let gcols := groupColsOf t.cols
  let metrics := spec.filter (fun p => t.cols.contains p.1)
  if gcols.isEmpty then Except.error "No group keys passed!"
  else if metrics.isEmpty then Except.error "No objects to concatenate"
  else do
    let rows ← groupAgg gcols metrics t.rows
    pure { cols := gcols ++ metrics.map Prod.fst, rows := rows }

/-- `aggregate_perf`. -/
def aggregatePerf (t : Table) : Except String Table :=
  aggregateGeneric perfAggSpec t

/-- `aggregate_status`. -/
def aggregateStatus (t : Table) : Except String Table :=
  aggregateGeneric statusAggSpec t

/-- Whether `pat` occurs at the head of `text`. -/
def leadMatch : List Char → List Char → Bool
  | [], _ => true
  | _ :: _, [] => false
  | a :: pat, b :: text => a == b && leadMatch pat text

/-- Whether `pat` occurs anywhere in `text`. -/
def containsChars (pat : List Char) : List Char → Bool
  | [] => pat.isEmpty
  | c :: text => leadMatch pat (c :: text) || containsChars pat text

/-- Bool substring test, the Python `pat in hay`. -/
def containsSubstr (hay pat : String) : Bool :=
  containsChars pat.toList hay.toList

/-- The booking name-column test: the trimmed, upper-cased column name is one
of the accepted aliases (`str(c).strip().upper() in (...)`). -/
def isNameCol (c : String) : Bool :=
  let key := (trimChars c.toList).map Char.toUpper
  key == "CC_CLERK_NAME".toList || key == "AGENT_NAME".toList ||
    key == "AGENT NAME".toList

/-- The booking count-column test: the upper-cased column name contains
`NO_OF_BOOKED_APPT` or `BOOKED` (`str(c).upper()`). -/
def isCountCol (c : String) : Bool :=
  let key := c.toList.map Char.toUpper
  containsChars "NO_OF_BOOKED_APPT".toList key || containsChars "BOOKED".toList key

/-- Coerced booking count of one row:
`pd.to_numeric(df2[count_col], errors='coerce').fillna(0.0)`. -/
def bookingCount (countCol : String) (r : Row) : Rat :=
  (toNumeric ((getv r countCol).getD Val.null)).getD 0

/-- String-coerced booking group key of one row:
`df2['Agent Name'] = df2[name_col].astype(str)`. -/
def bookingKey (nameCol : String) (r : Row) : String :=
  pyStrVal ((getv r nameCol).getD Val.null)

/-- `aggregate_booking`: resolve the name and count columns (first match in
column order, hard error when absent), coerce, then group by the stringified
name summing the coerced counts. -/
def aggregateBooking (t : Table) : Except String Table :=
  match t.cols.find? isNameCol with
  | none => Except.error "Booking file does not contain CC_CLERK_NAME / AGENT_NAME column"
  | some nameCol =>
    match t.cols.find? isCountCol with
    | none => Except.error "Booking file does not contain NO_OF_BOOKED_APPT-like column"
    | some countCol =>
      let keys := (t.rows.map (bookingKey nameCol)).dedup
      Except.ok
        { cols := ["Agent Name", "Total Inbound Booking"],
          rows := keys.map (fun k =>
            [("Agent Name", Val.str k),
             ("Total Inbound Booking",
              Val.num (((t.rows.filter (fun r => decide (bookingKey nameCol r = k))).map
                (bookingCount countCol)).sum))]) }

/-! ## Merge / reconciliation -/

/-- Key equality between two rows, as `pd.merge` compares join keys (`NaN`
join keys match each other in a merge). -/
def rowMatches (jcols : List String) (a b : Row) : Bool :=
  decide (keyOf jcols a = keyOf jcols b)

/-- Null cells for the right-side-only columns of a merged row. -/
def rightNulls (rcols jcols : List String) : Row :=
  (rcols.filter (fun c => !(decide (c ∈ jcols)))).map (fun c => (c, Val.null))

/-- A right row with its join-key cells removed (a merged row takes those
from the left side). -/
def stripKey (jcols : List String) (b : Row) : Row :=
  b.filter (fun p => !(decide (p.1 ∈ jcols)))

/-- Left-side cells of a merged row built from an unmatched right row: join
columns carry the right row's key values, other left columns are null. -/
def leftShell (lcols jcols : List String) (b : Row) : Row :=
  lcols.map (fun c => (c, if c ∈ jcols then (getv b c).getD Val.null else Val.null))

/-- The merged rows contributed by one left row: one per key-matching right
row, or a single right-null-filled row when nothing matches. -/
def blockOf (r : Table) (jcols : List String) (a : Row) : List Row :=
  match r.rows.filter (rowMatches jcols a) with
  | [] => [a ++ rightNulls r.cols jcols]
  | ms => ms.map (fun b => a ++ stripKey jcols b)

/-- Rows produced for the left side of a merge: each left row paired with
every key-matching right row, or null-filled on the right when unmatched. -/
def leftBlocks (l r : Table) (jcols : List String) : List (List Row) :=
  l.rows.map (blockOf r jcols)

/-- `pd.merge(l, r, on=jcols, how='outer')`. pandas sorts an outer result by
key and suffixes overlapping non-key columns; the claims' hypotheses exclude
overlaps and no claim depends on the outer result's row order, so the rows
are listed left-blocks-first. -/
def outerJoin (l r : Table) (jcols : List String) : Table :=
  { cols := l.cols ++ (r.cols.filter (fun c => !(decide (c ∈ jcols)))),
    rows :=
      (leftBlocks l r jcols).flatten ++
        ((r.rows.filter (fun b => l.rows.all (fun a => !rowMatches jcols a b))).map
          (fun b => leftShell l.cols jcols b ++ stripKey jcols b)) }

/-- `pd.merge(l, r, on=jcols, how='left')`: the left blocks only, preserving
left row order. -/
def leftJoin (l r : Table) (jcols : List String) : Table :=
  { cols := l.cols ++ (r.cols.filter (fun c => !(decide (c ∈ jcols)))),
    rows := (leftBlocks l r jcols).flatten }

/-- The booking count cell that the `Agent Name` left join attaches to one
merged row: the matched booking aggregate's summed count, null when no
booking row matches. -/
def bookingValFor (bagg : Table) (a : Row) : Val :=
  match bagg.rows.filter (rowMatches ["Agent Name"] a) with
  | [] => Val.null
  | b :: _ => (getv b "Total Inbound Booking").getD Val.null

/-- The primary merge key of `merge_perf_status`: candidate columns present
in both aggregates. -/
def joinColsOf (p s : Table) : List String :=
  candidateCols.filter (fun c => decide (c ∈ p.cols) && decide (c ∈ s.cols))

/-- The fallback merge key: `{Agent Id, Agent Name}` present in both. -/
def fallbackJoinCols (p s : Table) : List String :=
  ["Agent Id", "Agent Name"].filter
    (fun c => decide (c ∈ p.cols) && decide (c ∈ s.cols))

/-- `merge_perf_status`: choose the key, then full outer join. `pd.merge` on
an empty key list raises; that is modelled as `none`. -/
def mergePerfStatus (p s : Table) : Option Table :=
  let j0 := joinColsOf p s
  let j := if j0.isEmpty then fallbackJoinCols p s else j0
  if j.isEmpty then none else some (outerJoin p s j)

/-! ## Derived metrics and the template writer -/

/-- `0 if pd.isna(x) else float(x)` on a `row.get` result; `none` models the
uncaught exception of `float` on a non-numeric string. -/
def floatOrZero : Option Val → Option Rat
  | none => some 0
  | some Val.null => some 0
  | some (Val.num q) => some q
  | some (Val.str s) => pyFloatOfString s

/-- `None if pd.isna(x) else float(x)`: the outer `none` models an exception,
the inner `none` Python's `None`. -/
def floatOrNone : Option Val → Option (Option Rat)
  | none => some none
  | some Val.null => some none
  | some (Val.num q) => some (some q)
  | some (Val.str s) => (pyFloatOfString s).map some

/-- The average-handle-seconds selection of `fill_template`: the recomputed
`total_handle_sec / answered` is used only when `total_handle_sec` is truthy
(present and nonzero — `if total_handle_sec and answered:`) and `answered`
is truthy (nonzero); otherwise the source's `Avg Handle` is used, `None`
when that too is `NaN`/absent. -/
def avgHandleSecOf (rawTotalHandle : Option Val) (answered : Rat)
    (rawAvgHandle : Option Val) : Option (Option Rat) := do
  let totalHandle ← floatOrNone rawTotalHandle
  match totalHandle with
  | some th =>
    if th ≠ 0 ∧ answered ≠ 0 then pure (some (th / answered))
    else floatOrNone rawAvgHandle
  | none => floatOrNone rawAvgHandle

/-- One reconciled record as rendered by `fill_template` (the flat-CSV row
and the spreadsheet row are both drawn from these fields). -/
@[ext]
structure Rec where
  date : Date
  agentName : Val
  division : Val
  logIn : Option Val
  logOut : Option Val
  loggedInSeconds : Option Val
  loggedInDuration : Option Rat
  answered : Rat
  inqAmb : Rat
  outbound : Rat
  inboundBooking : Rat
  totalAcwSec : Rat
  totalAcwExcel : Option Rat
  avgHandleSec : Option Rat
  avgHandleTime : Option (Nat × Nat × Nat)
deriving DecidableEq, Repr

/-- One loop iteration of `fill_template` over a merged row; `none` models an
uncaught exception (only `float` on a non-numeric string can raise here). -/
def recOfRow (today : Date) (r : Row) : Option Rec := do
  let agentName := (getv r "Agent Name").getD (Val.str "")
  let division := (getv r "Division Name").getD (Val.str "")
  -- `Interval Start` cells come from CSV text, so the `datetime` branch of
  -- the isinstance dispatch is unreachable; strings are parsed and anything
  -- else falls back to today, which is also what `parse_interval_date` does.
  let dateV := parseIntervalDate today ((getv r "Interval Start").getD Val.null)
  let logIn := getv r "Log In"
  let logOut := getv r "Log Out"
  let loggedInSeconds := getv r "Logged In"
  let loggedInDuration := secondsToExcelTime loggedInSeconds
  let answered ← floatOrZero (getv r "Answered")
  let outbound ← floatOrZero (getv r "Outbound")
  let inqAmb := answered
  -- `row.get('Total Inbound Booking', 0)`: the integer default 0 takes the
  -- non-isna branch of the coercion and yields 0.0 as well.
  let inboundBooking ← floatOrZero (getv r "Total Inbound Booking")
  let totalAcwSec ← floatOrZero (getv r "Total ACW")
  let totalAcwExcel := secondsToExcelTime (some (Val.num totalAcwSec))
  let avgHandleSec ← avgHandleSecOf (getv r "Total Handle") answered (getv r "Avg Handle")
  let avgHandleTime := secondsToHhmmss (avgHandleSec.map Val.num)
  pure { date := dateV, agentName := agentName, division := division,
         logIn := logIn, logOut := logOut, loggedInSeconds := loggedInSeconds,
         loggedInDuration := loggedInDuration, answered := answered,
         inqAmb := inqAmb, outbound := outbound,
         inboundBooking := inboundBooking, totalAcwSec := totalAcwSec,
         totalAcwExcel := totalAcwExcel, avgHandleSec := avgHandleSec,
         avgHandleTime := avgHandleTime }

/-- An openpyxl cell value, as far as the writer sets them. -/
inductive CellVal where
  | empty : CellVal
  | datetime (d : Date) (h : Nat) (mi : Nat) : CellVal
  | pval (v : Val) : CellVal
  | ratv (q : Rat) : CellVal
  | intv (z : Int) : CellVal
  | timev (h : Nat) (mi : Nat) (s : Nat) : CellVal
  | formula (s : String) : CellVal
deriving DecidableEq, Repr

/-- The cell-value grid of a worksheet, indexed row-then-column from 1. -/
abbrev Grid := Nat → Nat → CellVal

/-- A worksheet: its `max_row` extent and its cells. Cells beyond `maxRow`
are empty in a real workbook; writes past it grow the real extent, but the
code reads `max_row` only once, before clearing. -/
structure Sheet where
  maxRow : Nat
  cells : Grid

/-- `ws[...] = x` where `x` may be Python `None`, which empties the cell. -/
def cellOfOpt : Option Val → CellVal
  | none => CellVal.empty
  | some v => CellVal.pval v

/-- Python `int(float)`: truncation toward zero. -/
def pyInt (q : Rat) : Int := if 0 ≤ q then ⌊q⌋ else ⌈q⌉

/-- The column-K formula string of row `ri`. -/
def bookingRatioFormula (ri : Nat) : String :=
  "=MAX(0,IFERROR(J" ++ toString ri ++ "/(G" ++ toString ri ++ "-H" ++ toString ri ++ "),0))"

/-- The column-L formula string of row `ri`. -/
def totalHandledFormula (ri : Nat) : String :=
  "=G" ++ toString ri ++ "+I" ++ toString ri

/-- The cell writes of one loop iteration at spreadsheet row `ri`; columns
A..N are 1..14, and F, M, N are only written when their value is present. -/
def applyRec (g : Grid) (ri : Nat) (rec : Rec) : Grid :=
  fun r c =>
    if r = ri then
      if c = 1 then CellVal.datetime rec.date 6 30
      else if c = 2 then CellVal.pval rec.agentName
      else if c = 3 then CellVal.pval rec.division
      else if c = 4 then cellOfOpt rec.logIn
      else if c = 5 then cellOfOpt rec.logOut
      else if c = 6 then
        (match rec.loggedInDuration with
         | some q => CellVal.ratv q
         | none => g r c)
      else if c = 7 then CellVal.intv (pyInt rec.answered)
      else if c = 8 then CellVal.intv (pyInt rec.inqAmb)
      else if c = 9 then CellVal.intv (pyInt rec.outbound)
      else if c = 10 then CellVal.intv (pyInt rec.inboundBooking)
      else if c = 11 then CellVal.formula (bookingRatioFormula ri)
      else if c = 12 then CellVal.formula (totalHandledFormula ri)
      else if c = 13 then
        (match rec.totalAcwExcel with
         | some q => CellVal.ratv q
         | none => g r c)
      else if c = 14 then
        (match rec.avgHandleTime with
         | some t => CellVal.timev t.1 t.2.1 t.2.2
         | none => g r c)
      else g r c
    else g r c

/-- The write loop: one record per row, starting at `start`. -/
def writeRecs (g : Grid) (start : Nat) : List Rec → Grid
  | [] => g
  | rec :: rest => writeRecs (applyRec g start rec) (start + 1) rest

/-- The clearing pass: blank columns 1..14 of rows 3..`maxRow`. -/
def clearRegion (maxRow : Nat) (g : Grid) : Grid :=
  fun r c =>
    if 3 ≤ r ∧ r ≤ maxRow ∧ 1 ≤ c ∧ c ≤ 14 then CellVal.empty else g r c

/-- `fill_template` on the data sheet: read `max_row`, clear, then write one
row per record from row 3 on; the parallel flat-CSV records are the same
list. -/
def fillTemplate (today : Date) (ws : Sheet) (df : Table) :
    Option (Sheet × List Rec) :=
  (mapMO (recOfRow today) df.rows).map (fun recs =>
    ({ maxRow := ws.maxRow,
       cells := writeRecs (clearRegion ws.maxRow ws.cells) 3 recs }, recs))

/-! ## The tail of `run_from_paths` -/

/-- The booking-enrichment step: left-join the booking aggregate on
`Agent Name` when both sides carry that column; no booking data, no change. -/
def applyBooking (merged : Table) : Option Table → Table
  | none => merged
  | some bagg =>
    if "Agent Name" ∈ merged.cols ∧ "Agent Name" ∈ bagg.cols then
      leftJoin merged bagg ["Agent Name"]
    else merged

/-- The null-agent filter `merged[merged['Agent Name'].notna()]`, applied
only when the column exists. -/
def dropNullAgent (t : Table) : Table :=
  if "Agent Name" ∈ t.cols then
    { cols := t.cols, rows := t.rows.filter (fun r => !(isna (getv r "Agent Name"))) }
  else t

/-- The reconciled records produced by the tail of `run_from_paths`: optional
booking left-join, null-agent filter, then the fill loop. -/
def runRecords (today : Date) (merged : Table) (bagg : Option Table) :
    Option (List Rec) :=
  mapMO (recOfRow today) (dropNullAgent (applyBooking merged bagg)).rows

/-- The summed booking figure carried by an aggregate row. -/
def tibOf (r : Row) : Rat :=
  numOf ((getv r "Total Inbound Booking").getD Val.null)

/-! ## Support lemmas for the time codec claims -/

theorem roundHalfEven_nonpos {q : Rat} (h : q < 0) : roundHalfEven q ≤ 0 := by
  have hfq : (⌊q⌋ : Rat) ≤ q := Int.floor_le q
  have hf : (⌊q⌋ : Rat) < 0 := lt_of_le_of_lt hfq h
  have hf' : ⌊q⌋ < 0 := by exact_mod_cast hf
  unfold roundHalfEven
  split_ifs <;> omega

theorem roundHalfEven_ge_floor (q : Rat) : ⌊q⌋ ≤ roundHalfEven q := by
  unfold roundHalfEven
  split_ifs <;> omega

theorem roundHalfEven_nearest (q : Rat) :
    |(roundHalfEven q : Rat) - q| ≤ 1 / 2 := by
  have hfl : (⌊q⌋ : Rat) ≤ q := Int.floor_le q
  have hfu : q < (⌊q⌋ : Rat) + 1 := Int.lt_floor_add_one q
  rw [abs_le]
  unfold roundHalfEven
  split_ifs with h1 h2 h3 <;> push_cast at h1 ⊢ <;> constructor <;> linarith

theorem clockOfInt_nonpos {z : Int} (h : z ≤ 0) : clockOfInt z = (0, 0, 0) := by
  have : z.toNat = 0 := Int.toNat_eq_zero.mpr h
  simp [clockOfInt, this]

theorem clockOfInt_clamp {z : Int} (h : 86400 ≤ z) : clockOfInt z = (23, 59, 59) := by
  have h0 : (0 : Int) ≤ z := by omega
  have hs : 86400 ≤ z.toNat := by omega
  have hh : 24 ≤ z.toNat / 3600 := (Nat.le_div_iff_mul_le (by norm_num)).mpr (by omega)
  unfold clockOfInt
  have : z.toNat / 3600 > 23 := by omega
  simp [this]

/-- C6: `seconds_to_hhmmss_time` rounds its numeric input to the nearest
whole second (half to even), maps every negative input to `00:00:00`, clamps
any result past `23:59:59` to exactly `(23, 59, 59)` — in particular 90000
seconds give `(23, 59, 59)` — and returns `None` without raising on `None`,
`NaN` and non-numeric strings. -/
theorem c6_clock_time_round_floor_clamp :
    (∀ q : Rat, secondsToHhmmss (some (Val.num q)) =
        some (clockOfInt (roundHalfEven q)) ∧
        |(roundHalfEven q : Rat) - q| ≤ 1 / 2)
    ∧ (∀ q : Rat, q < 0 → secondsToHhmmss (some (Val.num q)) = some (0, 0, 0))
    ∧ (∀ q : Rat, (86400 : Rat) ≤ q →
        secondsToHhmmss (some (Val.num q)) = some (23, 59, 59))
    ∧ secondsToHhmmss (some (Val.num 90000)) = some (23, 59, 59)
    ∧ secondsToHhmmss none = none
    ∧ secondsToHhmmss (some Val.null) = none
    ∧ (∀ s : String, pyFloatOfString s = none →
        secondsToHhmmss (some (Val.str s)) = none) := by
  refine ⟨fun q => ⟨rfl, roundHalfEven_nearest q⟩, fun q hq => ?_, fun q hq => ?_,
    ?_, rfl, rfl, fun s hs => ?_⟩
  · show some (clockOfInt (roundHalfEven q)) = some (0, 0, 0)
    rw [clockOfInt_nonpos (roundHalfEven_nonpos hq)]
  · show some (clockOfInt (roundHalfEven q)) = some (23, 59, 59)
    have hf : (86400 : Int) ≤ ⌊q⌋ := Int.le_floor.mpr (by exact_mod_cast hq)
    rw [clockOfInt_clamp (le_trans hf (roundHalfEven_ge_floor q))]
  · show some (clockOfInt (roundHalfEven 90000)) = some (23, 59, 59)
    have hf : (86400 : Int) ≤ ⌊(90000 : Rat)⌋ := Int.le_floor.mpr (by norm_num)
    rw [clockOfInt_clamp (le_trans hf (roundHalfEven_ge_floor 90000))]
  · simp [secondsToHhmmss, hs]

/-- Witness for C6 at concrete inputs. -/
theorem c6_witness :
    secondsToHhmmss (some (Val.num (-5))) = some (0, 0, 0)
    ∧ secondsToHhmmss (some (Val.num 90000)) = some (23, 59, 59)
    ∧ secondsToHhmmss (some (Val.str "abc")) = none :=
  ⟨c6_clock_time_round_floor_clamp.2.1 (-5) (by norm_num),
   c6_clock_time_round_floor_clamp.2.2.2.1,
   c6_clock_time_round_floor_clamp.2.2.2.2.2.2 "abc" (by decide)⟩

/-- C9: `parse_interval_date` tries `'%d/%m/%y %H:%M'` before
`'%m/%d/%y %H:%M'`, so any string the day-first format accepts — in
particular one that both formats accept, such as `"03/04/25 10:00"` — is
read day-first, and the month-first format is consulted only on strings the
day-first format rejects. -/
theorem c9_day_first_priority :
    (∀ (today : Date) (s : String) (d : Date),
        strptimeDate true s = some d → parseIntervalDate today (Val.str s) = d)
    ∧ (∀ (today : Date) (s : String), strptimeDate true s = none →
        parseIntervalDate today (Val.str s) = (strptimeDate false s).getD today)
    ∧ (∀ today : Date,
        parseIntervalDate today (Val.str "03/04/25 10:00") = ⟨2025, 4, 3⟩)
    ∧ strptimeDate true "03/04/25 10:00" = some ⟨2025, 4, 3⟩
    ∧ strptimeDate false "03/04/25 10:00" = some ⟨2025, 3, 4⟩ := by
  have hday : ∀ (today : Date) (s : String) (d : Date),
      strptimeDate true s = some d → parseIntervalDate today (Val.str s) = d := by
    intro today s d h
    simp [parseIntervalDate, h]
  refine ⟨hday, fun today s h => ?_, fun today => ?_, by decide, by decide⟩
  · simp only [parseIntervalDate, h]
    cases strptimeDate false s <;> rfl
  · exact hday today _ _ (by decide)

/-- Witness for C9 at a concrete date and string. -/
theorem c9_witness :
    parseIntervalDate ⟨2024, 1, 1⟩ (Val.str "03/04/25 10:00") = ⟨2025, 4, 3⟩ :=
  c9_day_first_priority.1 ⟨2024, 1, 1⟩ "03/04/25 10:00" ⟨2025, 4, 3⟩ (by decide)

/-- C3 counterexample: the claim says a present total-handle value together
with a nonzero answered count always forces the recomputed average. The code
additionally requires the total-handle value itself to be truthy: with
`Total Handle = 0`, `Answered = 10` and a reported `Avg Handle = 55`, the
record's average is the reported 55, not `0 / 10 = 0`. -/
theorem c3_counterexample :
    (recOfRow ⟨2025, 1, 1⟩
        [("Agent Name", Val.str "A"), ("Answered", Val.num 10),
         ("Total Handle", Val.num 0), ("Avg Handle", Val.num 55)]).map
      Rec.avgHandleSec = some (some 55)
    ∧ avgHandleSecOf (some (Val.num 0)) 10 (some (Val.num 55)) = some (some 55)
    ∧ ¬ ((55 : Rat) = 0 / 10) := by
  refine ⟨by decide, by decide, by norm_num⟩

/-- C3 (amended): the recomputed `totalHandle / answered` overrides the
source's reported average exactly when the total-handle value is present and
**nonzero** and `answered` is nonzero; in every other case (`Total Handle`
absent, `NaN` or zero, or `answered` zero) the record carries the source's
reported average, `None` when that too is absent. In particular
`totalHandle = 600`, `answered = 10` yields 60 even when the source reports
55. -/
theorem c3_avg_handle_override :
    (∀ (th a : Rat), th ≠ 0 → a ≠ 0 → ∀ rawAvg : Option Val,
        avgHandleSecOf (some (Val.num th)) a rawAvg = some (some (th / a)))
    ∧ (∀ (a : Rat) (rawAvg : Option Val),
        avgHandleSecOf none a rawAvg = floatOrNone rawAvg)
    ∧ (∀ (a : Rat) (rawAvg : Option Val),
        avgHandleSecOf (some Val.null) a rawAvg = floatOrNone rawAvg)
    ∧ (∀ (a : Rat) (rawAvg : Option Val),
        avgHandleSecOf (some (Val.num 0)) a rawAvg = floatOrNone rawAvg)
    ∧ (∀ (th : Rat) (rawAvg : Option Val),
        avgHandleSecOf (some (Val.num th)) 0 rawAvg = floatOrNone rawAvg)
    ∧ floatOrNone none = some none
    ∧ floatOrNone (some Val.null) = some none
    ∧ (∀ x : Rat, floatOrNone (some (Val.num x)) = some (some x)) := by
  refine ⟨fun th a hth ha rawAvg => ?_, fun a rawAvg => rfl, fun a rawAvg => rfl,
    fun a rawAvg => ?_, fun th rawAvg => ?_, rfl, rfl, fun x => rfl⟩
  · simp [avgHandleSecOf, floatOrNone, hth, ha]
  · simp [avgHandleSecOf, floatOrNone]
  · simp [avgHandleSecOf, floatOrNone]

/-- Witness for C3 (amended) at `totalHandle = 600`, `answered = 10`,
reported average 55: the record derives 60. -/
theorem c3_witness :
    avgHandleSecOf (some (Val.num 600)) 10 (some (Val.num 55)) =
      some (some 60) := by
  rw [c3_avg_handle_override.1 600 10 (by norm_num) (by norm_num)
    (some (Val.num 55))]
  norm_num

/-! ## Monadic-map support lemmas -/

theorem exceptBind_ok {ε α β : Type} (a : α) (f : α → Except ε β) :
    (Except.ok a >>= f) = f a := rfl

theorem exceptBind_err {ε α β : Type} (e : ε) (f : α → Except ε β) :
    ((Except.error e : Except ε α) >>= f) = Except.error e := rfl

theorem optBind_some {α β : Type} (a : α) (f : α → Option β) :
    (some a >>= f) = f a := rfl

theorem optBind_none {α β : Type} (f : α → Option β) :
    ((none : Option α) >>= f) = none := rfl

theorem mapME_cons_ok {ε α β : Type} {f : α → Except ε β} {a : α} {as : List α}
    {l' : List β} (h : mapME f (a :: as) = Except.ok l') :
    ∃ b bs, f a = Except.ok b ∧ mapME f as = Except.ok bs ∧ l' = b :: bs := by
  cases hfa : f a with
  | error e => simp [mapME, hfa, exceptBind_err] at h
  | ok b =>
    cases hrest : mapME f as with
    | error e => simp [mapME, hfa, hrest, exceptBind_ok, exceptBind_err] at h
    | ok bs =>
      refine ⟨b, bs, rfl, rfl, ?_⟩
      simp only [mapME, hfa, hrest, exceptBind_ok] at h
      cases h
      rfl

theorem mapME_ok_length {ε α β : Type} (f : α → Except ε β) :
    ∀ (l : List α) (l' : List β), mapME f l = Except.ok l' → l'.length = l.length := by
  intro l
  induction l with
  | nil =>
    intro l' h
    simp only [mapME] at h
    cases h
    rfl
  | cons a as ih =>
    intro l' h
    obtain ⟨b, bs, _, hrest, rfl⟩ := mapME_cons_ok h
    simp [ih bs hrest]

theorem mapMO_cons_some {α β : Type} {f : α → Option β} {a : α} {as : List α}
    {l' : List β} (h : mapMO f (a :: as) = some l') :
    ∃ b bs, f a = some b ∧ mapMO f as = some bs ∧ l' = b :: bs := by
  cases hfa : f a with
  | none => simp [mapMO, hfa, optBind_none] at h
  | some b =>
    cases hrest : mapMO f as with
    | none => simp [mapMO, hfa, hrest, optBind_some, optBind_none] at h
    | some bs =>
      refine ⟨b, bs, rfl, rfl, ?_⟩
      simp only [mapMO, hfa, hrest, optBind_some] at h
      cases h
      rfl

theorem mapMO_some_length {α β : Type} (f : α → Option β) :
    ∀ (l : List α) (l' : List β), mapMO f l = some l' → l'.length = l.length := by
  intro l
  induction l with
  | nil =>
    intro l' h
    simp only [mapMO] at h
    cases h
    rfl
  | cons a as ih =>
    intro l' h
    obtain ⟨b, bs, _, hrest, rfl⟩ := mapMO_cons_some h
    simp [ih bs hrest]

theorem mapMO_some_get {α β : Type} (f : α → Option β) :
    ∀ (l : List α) (l' : List β), mapMO f l = some l' →
      ∀ (i : Nat) (hi : i < l.length) (hi' : i < l'.length),
        f (l.get ⟨i, hi⟩) = some (l'.get ⟨i, hi'⟩) := by
  intro l
  induction l with
  | nil => intro l' h i hi; simp at hi
  | cons a as ih =>
    intro l' h i hi hi'
    obtain ⟨b, bs, hfa, hrest, rfl⟩ := mapMO_cons_some h
    cases i with
    | zero => simpa using hfa
    | succ j =>
      have hj : j < as.length := by simpa using hi
      have hj' : j < bs.length := by simpa using hi'
      simpa using ih bs hrest j hj hj'

theorem mapMO_isSome_iff {α β : Type} (f : α → Option β) :
    ∀ l : List α, (mapMO f l).isSome ↔ ∀ a ∈ l, (f a).isSome := by
  intro l
  induction l with
  | nil => simp [mapMO]
  | cons a as ih =>
    cases hfa : f a with
    | none => simp [mapMO, hfa, optBind_none]
    | some b =>
      cases hrest : mapMO f as with
      | none =>
        rw [hrest] at ih
        simp only [mapMO, hfa, hrest, optBind_some, optBind_none]
        simp only [Option.isSome_none, Bool.false_eq_true, false_iff] at ih ⊢
        intro hall
        exact ih fun x hx => hall x (List.mem_cons_of_mem _ hx)
      | some bs =>
        rw [hrest] at ih
        have ihall : ∀ x ∈ as, (f x).isSome := ih.mp (by simp)
        simp only [mapMO, hfa, hrest, optBind_some]
        constructor
        · intro _ x hx
          rcases List.mem_cons.mp hx with rfl | hx'
          · simp [hfa]
          · exact ihall x hx'
        · intro _
          simp [pure]

/-! ## Partition / counting support lemmas -/

theorem sum_map_single_diff {κ M : Type} [DecidableEq κ] [AddCommMonoid M]
    (f g : κ → M) (w : M) :
    ∀ ks : List κ, ks.Nodup → ∀ k0 ∈ ks, (∀ k ∈ ks, k ≠ k0 → f k = g k) →
      f k0 = w + g k0 → (ks.map f).sum = w + (ks.map g).sum := by
  intro ks
  induction ks with
  | nil => intro _ k0 hk0; simp at hk0
  | cons a ks ih =>
    intro hnd k0 hk0 hsame hdiff
    rcases List.mem_cons.mp hk0 with rfl | hk0'
    · have hfg : ∀ k ∈ ks, f k = g k := by
        intro k hk
        refine hsame k (List.mem_cons_of_mem _ hk) ?_
        intro he
        exact (List.nodup_cons.mp hnd).1 (he ▸ hk)
      rw [List.map_cons, List.sum_cons, hdiff, List.map_congr_left hfg,
        List.map_cons, List.sum_cons, add_assoc]
    · have ha : a ≠ k0 := fun he => (List.nodup_cons.mp hnd).1 (he ▸ hk0')
      have hfa : f a = g a := hsame a (List.mem_cons_self _ _) ha
      have hrec := ih (List.nodup_cons.mp hnd).2 k0 hk0'
        (fun k hk hne => hsame k (List.mem_cons_of_mem _ hk) hne) hdiff
      simp only [List.map_cons, List.sum_cons, hfa, hrec]
      rw [add_left_comm]

theorem sum_filter_partition {α κ M : Type} [DecidableEq κ] [AddCommMonoid M]
    (key : α → κ) (w : α → M) :
    ∀ (l : List α) (ks : List κ), ks.Nodup → (∀ a ∈ l, key a ∈ ks) →
      (ks.map (fun k => ((l.filter (fun x => decide (key x = k))).map w).sum)).sum
        = (l.map w).sum := by
  intro l
  induction l with
  | nil =>
    intro ks _ _
    simp
  | cons a l ih =>
    intro ks hnd hcov
    have hka : key a ∈ ks := hcov a (List.mem_cons_self _ _)
    have hstep : ∀ k, (a :: l).filter (fun x => decide (key x = k))
        = if key a = k then a :: l.filter (fun x => decide (key x = k))
          else l.filter (fun x => decide (key x = k)) := by
      intro k
      by_cases h : key a = k <;> simp [List.filter_cons, h]
    have hmain := sum_map_single_diff
      (fun k => (((a :: l).filter (fun x => decide (key x = k))).map w).sum)
      (fun k => ((l.filter (fun x => decide (key x = k))).map w).sum)
      (w a) ks hnd (key a) hka ?_ ?_
    · rw [hmain, List.map_cons, List.sum_cons,
        ih ks hnd (fun x hx => hcov x (List.mem_cons_of_mem _ hx))]
    · intro k hk hne
      simp only []
      rw [hstep k, if_neg (fun he => hne he.symm)]
    · simp only []
      rw [hstep (key a), if_pos rfl, List.map_cons, List.sum_cons]

theorem sum_ones_eq_length {α : Type} (l : List α) :
    (l.map (fun _ => (1 : Nat))).sum = l.length := by
  induction l with
  | nil => rfl
  | cons a l ih => simp [ih, Nat.add_comm]

/-- Row conservation of the grouping step: summing the group sizes over the
distinct keys recovers the number of input rows (no row is dropped, null key
components included). -/
theorem group_sizes_sum (gcols : List String) (rows : List Row) :
    ((groupKeys gcols rows).map
      (fun k => (groupRows gcols rows k).length)).sum = rows.length := by
  have hpart := sum_filter_partition (keyOf gcols) (fun _ => (1 : Nat))
    rows ((rows.map (keyOf gcols)).dedup) (List.nodup_dedup _)
    (fun r hr => List.mem_dedup.mpr (List.mem_map_of_mem _ hr))
  calc ((groupKeys gcols rows).map (fun k => (groupRows gcols rows k).length)).sum
      = ((rows.map (keyOf gcols)).dedup.map
          (fun k => ((rows.filter (fun x => decide (keyOf gcols x = k))).map
            (fun _ => (1 : Nat))).sum)).sum := by
        apply congrArg
        apply List.map_congr_left
        intro k _
        rw [sum_ones_eq_length]
        rfl
    _ = (rows.map (fun _ => (1 : Nat))).sum := hpart
    _ = rows.length := sum_ones_eq_length rows

/-! ## Inversion lemmas for the aggregators -/

theorem exceptPure {ε α : Type} (x : α) :
    (pure x : Except ε α) = Except.ok x := rfl

theorem aggregateGeneric_ok_rows
    {spec : List (String × (List Val → Except String Val))} {t out : Table}
    (h : aggregateGeneric spec t = Except.ok out) :
    out.rows.length = (groupKeys (groupColsOf t.cols) t.rows).length := by
  simp only [aggregateGeneric] at h
  split at h
  · exact absurd h (by simp)
  · split at h
    · exact absurd h (by simp)
    · cases hg : groupAgg (groupColsOf t.cols)
          (spec.filter (fun p => t.cols.contains p.1)) t.rows with
      | error e =>
        rw [hg, exceptBind_err] at h
        exact absurd h (by simp)
      | ok rows =>
        rw [hg, exceptBind_ok, exceptPure] at h
        cases h
        exact mapME_ok_length _ _ _ hg

theorem aggregateBooking_isOk_eq (t : Table) :
    (aggregateBooking t).isOk
      = ((t.cols.find? isNameCol).isSome && (t.cols.find? isCountCol).isSome) := by
  unfold aggregateBooking
  cases hn : t.cols.find? isNameCol with
  | none => rfl
  | some nameCol =>
    cases hc : t.cols.find? isCountCol with
    | none => rfl
    | some countCol => rfl

theorem aggregateBooking_ok_inv {t out : Table}
    (h : aggregateBooking t = Except.ok out) :
    ∃ nameCol countCol,
      t.cols.find? isNameCol = some nameCol
      ∧ t.cols.find? isCountCol = some countCol
      ∧ out = ⟨["Agent Name", "Total Inbound Booking"],
          ((t.rows.map (bookingKey nameCol)).dedup).map (fun k =>
            [("Agent Name", Val.str k),
             ("Total Inbound Booking",
              Val.num (((t.rows.filter
                  (fun r => decide (bookingKey nameCol r = k))).map
                (bookingCount countCol)).sum))])⟩ := by
  unfold aggregateBooking at h
  cases hn : t.cols.find? isNameCol with
  | none => rw [hn] at h; exact absurd h (by simp)
  | some nameCol =>
    rw [hn] at h
    cases hc : t.cols.find? isCountCol with
    | none => rw [hc] at h; exact absurd h (by simp)
    | some countCol =>
      rw [hc] at h
      refine ⟨nameCol, countCol, rfl, rfl, ?_⟩
      cases h
      rfl

/-- C5: `aggregate_perf` and `aggregate_status` group by exactly the sublist
of the candidate columns present in the table (candidate order preserved),
treat null key components as ordinary group values, and never drop a row:
every input row's key lies in exactly one of the (pairwise distinct) group
keys, the group sizes sum to the input row count, and a successful aggregate
has one output row per distinct key. -/
theorem c5_aggregators_group_and_conserve :
    ∀ t : Table,
      (∀ c, c ∈ groupColsOf t.cols ↔ c ∈ candidateCols ∧ c ∈ t.cols)
      ∧ (groupColsOf t.cols).Sublist candidateCols
      ∧ (groupKeys (groupColsOf t.cols) t.rows).Nodup
      ∧ (∀ r ∈ t.rows,
          keyOf (groupColsOf t.cols) r ∈ groupKeys (groupColsOf t.cols) t.rows)
      ∧ ((groupKeys (groupColsOf t.cols) t.rows).map
          (fun k => (groupRows (groupColsOf t.cols) t.rows k).length)).sum
        = t.rows.length
      ∧ (∀ out, aggregatePerf t = Except.ok out →
          out.rows.length = (groupKeys (groupColsOf t.cols) t.rows).length)
      ∧ (∀ out, aggregateStatus t = Except.ok out →
          out.rows.length = (groupKeys (groupColsOf t.cols) t.rows).length) := by
  intro t
  refine ⟨fun c => ?_, List.filter_sublist _, List.nodup_dedup _,
    fun r hr => List.mem_dedup.mpr (List.mem_map_of_mem _ hr),
    group_sizes_sum _ _,
    fun out h => aggregateGeneric_ok_rows h,
    fun out h => aggregateGeneric_ok_rows h⟩
  simp [groupColsOf, List.mem_filter]

/-- Concrete evaluation of `aggregate_perf` on a two-null-key-row table. -/
theorem c5_eval :
    aggregatePerf
        ⟨["Agent Name", "Answered"],
          [[("Agent Name", Val.null), ("Answered", Val.num 2)],
           [("Agent Name", Val.null), ("Answered", Val.num 3)]]⟩
      = Except.ok ⟨["Agent Name", "Answered"],
          [[("Agent Name", Val.null), ("Answered", Val.num 5)]]⟩ := by
  have h23 : (2 : Rat) + (3 + 0) = 5 := by norm_num
  have h23' : (2 : Rat) + 3 = 5 := by norm_num
  simp +decide [aggregatePerf, aggregateGeneric, groupColsOf, candidateCols,
    perfAggSpec, groupAgg, groupKeys, keyOf, getv, groupRows, mapME, redSum,
    numOf, isNumV, isNullV, List.dedup, List.filter, h23, h23',
    exceptBind_ok, exceptPure]

/-- Witness for C5 on a two-row table whose only key column holds nulls:
both rows land in the single null-keyed group and the aggregate keeps it. -/
theorem c5_witness :
    (⟨["Agent Name", "Answered"],
      [[("Agent Name", Val.null), ("Answered", Val.num 5)]]⟩ : Table).rows.length
      = (groupKeys (groupColsOf
            (⟨["Agent Name", "Answered"],
              [[("Agent Name", Val.null), ("Answered", Val.num 2)],
               [("Agent Name", Val.null), ("Answered", Val.num 3)]]⟩ : Table).cols)
          (⟨["Agent Name", "Answered"],
            [[("Agent Name", Val.null), ("Answered", Val.num 2)],
             [("Agent Name", Val.null), ("Answered", Val.num 3)]]⟩ : Table).rows).length :=
  (c5_aggregators_group_and_conserve
      ⟨["Agent Name", "Answered"],
        [[("Agent Name", Val.null), ("Answered", Val.num 2)],
         [("Agent Name", Val.null), ("Answered", Val.num 3)]]⟩).2.2.2.2.2.1
    ⟨["Agent Name", "Answered"],
      [[("Agent Name", Val.null), ("Answered", Val.num 5)]]⟩ c5_eval

/-- C7: `aggregate_booking` fails exactly when the name column (trimmed
upper-cased alias) or the count column (upper-cased substring `BOOKED` /
`NO_OF_BOOKED_APPT`) is missing; success depends on the columns only, never
on the data, non-numeric counts coerce to zero, and a successful aggregate
has one row per distinct stringified agent name whose summed counts conserve
the total coerced count mass. -/
theorem c7_booking_errors_iff_columns_missing :
    ∀ t : Table,
      ((aggregateBooking t).isOk = true ↔
        ((t.cols.find? isNameCol).isSome = true
          ∧ (t.cols.find? isCountCol).isSome = true))
      ∧ (∀ rows2 : List Row,
          (aggregateBooking ⟨t.cols, rows2⟩).isOk = (aggregateBooking t).isOk)
      ∧ (∀ s : String, pyFloatOfString s = none → ∀ (countCol : String) (r : Row),
          getv r countCol = some (Val.str s) → bookingCount countCol r = 0)
      ∧ (∀ nameCol countCol out, t.cols.find? isNameCol = some nameCol →
          t.cols.find? isCountCol = some countCol →
          aggregateBooking t = Except.ok out →
          out.cols = ["Agent Name", "Total Inbound Booking"]
          ∧ (out.rows.map (fun r => getv r "Agent Name")).Nodup
          ∧ out.rows.length = ((t.rows.map (bookingKey nameCol)).dedup).length
          ∧ (out.rows.map tibOf).sum = (t.rows.map (bookingCount countCol)).sum) := by
  intro t
  refine ⟨?_, fun rows2 => ?_, fun s hs countCol r hr => ?_, ?_⟩
  · rw [aggregateBooking_isOk_eq]
    cases (t.cols.find? isNameCol).isSome <;>
      cases (t.cols.find? isCountCol).isSome <;> simp
  · rw [aggregateBooking_isOk_eq, aggregateBooking_isOk_eq]
  · simp [bookingCount, hr, toNumeric, hs]
  · intro nameCol countCol out hn hc hok
    obtain ⟨nameCol', countCol', hn', hc', rfl⟩ := aggregateBooking_ok_inv hok
    rw [hn] at hn'
    rw [hc] at hc'
    cases hn'
    cases hc'
    refine ⟨rfl, ?_, by simp, ?_⟩
    · have hrw : (((t.rows.map (bookingKey nameCol)).dedup).map (fun k =>
          [("Agent Name", Val.str k),
           ("Total Inbound Booking",
            Val.num (((t.rows.filter
                (fun r => decide (bookingKey nameCol r = k))).map
              (bookingCount countCol)).sum))])).map (fun r => getv r "Agent Name")
          = ((t.rows.map (bookingKey nameCol)).dedup).map
              (fun k => some (Val.str k)) := by
        rw [List.map_map]
        apply List.map_congr_left
        intro k _
        simp [getv]
      show (List.map (fun r => getv r "Agent Name") _).Nodup
      rw [hrw]
      exact (List.nodup_dedup _).map (fun x y hxy => by
        simpa using hxy)
    · have hrw : (((t.rows.map (bookingKey nameCol)).dedup).map (fun k =>
          [("Agent Name", Val.str k),
           ("Total Inbound Booking",
            Val.num (((t.rows.filter
                (fun r => decide (bookingKey nameCol r = k))).map
              (bookingCount countCol)).sum))])).map tibOf
          = ((t.rows.map (bookingKey nameCol)).dedup).map (fun k =>
              ((t.rows.filter (fun r => decide (bookingKey nameCol r = k))).map
                (bookingCount countCol)).sum) := by
        rw [List.map_map]
        apply List.map_congr_left
        intro k _
        simp [tibOf, getv, numOf]
      show (List.map tibOf _).sum = _
      rw [hrw]
      exact sum_filter_partition (bookingKey nameCol)
        (bookingCount countCol) t.rows _ (List.nodup_dedup _)
        (fun r hr => List.mem_dedup.mpr (List.mem_map_of_mem _ hr))

/-- Concrete evaluation of `aggregate_booking` on an alias-named table with
one dirty count cell. -/
theorem c7_eval :
    aggregateBooking
        ⟨["AGENT_NAME", "NO_OF_BOOKED_APPT"],
          [[("AGENT_NAME", Val.str "A"), ("NO_OF_BOOKED_APPT", Val.str "x")],
           [("AGENT_NAME", Val.str "A"), ("NO_OF_BOOKED_APPT", Val.num 2)]]⟩
      = Except.ok ⟨["Agent Name", "Total Inbound Booking"],
          [[("Agent Name", Val.str "A"), ("Total Inbound Booking", Val.num 2)]]⟩ := by
  have h1 : (0 : Rat) + (2 + 0) = 2 := by norm_num
  have h2 : (2 : Rat) + 0 = 2 := by norm_num
  have h3 : (0 : Rat) + 2 = 2 := by norm_num
  have hn : (["AGENT_NAME", "NO_OF_BOOKED_APPT"]).find? isNameCol
      = some "AGENT_NAME" := by decide
  have hc : (["AGENT_NAME", "NO_OF_BOOKED_APPT"]).find? isCountCol
      = some "NO_OF_BOOKED_APPT" := by decide
  simp +decide [aggregateBooking, hn, hc, bookingKey, bookingCount, pyStrVal,
    toNumeric, getv, List.dedup, List.filter, pyFloatOfString, trimChars,
    parseMantissa, takeDigits, h1, h2, h3]

/-- Witness for C7: a booking table with alias columns and one dirty count
row aggregates successfully, coercing the dirty cell to zero and conserving
the coerced count mass. -/
theorem c7_witness :
    (aggregateBooking ⟨["AGENT_NAME", "NO_OF_BOOKED_APPT"],
        [[("AGENT_NAME", Val.str "A"), ("NO_OF_BOOKED_APPT", Val.str "x")],
         [("AGENT_NAME", Val.str "A"), ("NO_OF_BOOKED_APPT", Val.num 2)]]⟩).isOk
        = true
    ∧ bookingCount "NO_OF_BOOKED_APPT"
        [("AGENT_NAME", Val.str "A"), ("NO_OF_BOOKED_APPT", Val.str "x")] = 0
    ∧ ((⟨["Agent Name", "Total Inbound Booking"],
          [[("Agent Name", Val.str "A"), ("Total Inbound Booking", Val.num 2)]]⟩
            : Table).rows.map tibOf).sum
      = ([[("AGENT_NAME", Val.str "A"), ("NO_OF_BOOKED_APPT", Val.str "x")],
          [("AGENT_NAME", Val.str "A"), ("NO_OF_BOOKED_APPT", Val.num 2)]].map
          (bookingCount "NO_OF_BOOKED_APPT")).sum := by
  have h := c7_booking_errors_iff_columns_missing
    ⟨["AGENT_NAME", "NO_OF_BOOKED_APPT"],
      [[("AGENT_NAME", Val.str "A"), ("NO_OF_BOOKED_APPT", Val.str "x")],
       [("AGENT_NAME", Val.str "A"), ("NO_OF_BOOKED_APPT", Val.num 2)]]⟩
  exact ⟨h.1.mpr (by decide), h.2.2.1 "x" (by decide) "NO_OF_BOOKED_APPT" _ (by decide),
    (h.2.2.2 "AGENT_NAME" "NO_OF_BOOKED_APPT" _ (by decide) (by decide) c7_eval).2.2.2⟩

/-- C10: `astype(str)` turns a null agent name into the literal string
`"nan"`, so a null-named booking row is grouped under `"nan"`; that group key
is a non-null string (the null-agent filter keeps rows valued with it), it
joins no merged row whose agent name differs from the literal `"nan"` (and
`pd.read_csv` turns a literal `"nan"` cell into `NaN`, so no Genesys-loaded
agent carries it), and numeric name cells likewise group under their string
rendering. -/
theorem c10_null_booking_names_group_as_nan :
    pyStrVal Val.null = "nan"
    ∧ (∀ (nameCol : String) (r : Row), getv r nameCol = some Val.null →
        bookingKey nameCol r = "nan")
    ∧ (∀ (t : Table) (nameCol countCol : String) (out : Table),
        t.cols.find? isNameCol = some nameCol →
        t.cols.find? isCountCol = some countCol →
        aggregateBooking t = Except.ok out →
        ∀ r ∈ t.rows, getv r nameCol = some Val.null →
          ∃ orow ∈ out.rows, getv orow "Agent Name" = some (Val.str "nan"))
    ∧ (∀ t2 : Table, "Agent Name" ∈ t2.cols →
        ∀ r ∈ t2.rows, getv r "Agent Name" = some (Val.str "nan") →
          r ∈ (dropNullAgent t2).rows)
    ∧ (∀ (mrow orow : Row) (v : Val), getv mrow "Agent Name" = some v →
        v ≠ Val.str "nan" → getv orow "Agent Name" = some (Val.str "nan") →
        rowMatches ["Agent Name"] mrow orow = false)
    ∧ (∀ (nameCol : String) (q : Rat) (r : Row),
        getv r nameCol = some (Val.num q) →
        bookingKey nameCol r = pyStrVal (Val.num q)) := by
  have hkey : ∀ (nameCol : String) (r : Row), getv r nameCol = some Val.null →
      bookingKey nameCol r = "nan" := by
    intro nameCol r h
    simp [bookingKey, h, pyStrVal]
  refine ⟨rfl, hkey, ?_, ?_, ?_, ?_⟩
  · intro t nameCol countCol out hn hc hok r hr hnull
    obtain ⟨nameCol', countCol', hn', hc', rfl⟩ := aggregateBooking_ok_inv hok
    rw [hn] at hn'
    rw [hc] at hc'
    cases hn'
    cases hc'
    have hmem : "nan" ∈ (t.rows.map (bookingKey nameCol)).dedup := by
      refine List.mem_dedup.mpr ?_
      rw [← hkey nameCol r hnull]
      exact List.mem_map_of_mem _ hr
    refine ⟨_, List.mem_map_of_mem _ hmem, ?_⟩
    simp [getv]
  · intro t2 hcols r hr hval
    show r ∈ (dropNullAgent t2).rows
    unfold dropNullAgent
    rw [if_pos hcols]
    exact List.mem_filter.mpr ⟨hr, by simp [isna, hval]⟩
  · intro mrow orow v hv hne ho
    apply decide_eq_false
    intro heq
    unfold keyOf at heq
    simp only [List.map_cons, List.map_nil, hv, ho, Option.getD_some,
      List.cons.injEq, and_true] at heq
    exact hne heq
  · intro nameCol q r h
    simp [bookingKey, h]

/-- Concrete evaluation of `aggregate_booking` on a null-named row. -/
theorem c10_eval :
    aggregateBooking
        ⟨["AGENT_NAME", "BOOKED"],
          [[("AGENT_NAME", Val.null), ("BOOKED", Val.num 5)]]⟩
      = Except.ok ⟨["Agent Name", "Total Inbound Booking"],
          [[("Agent Name", Val.str "nan"), ("Total Inbound Booking", Val.num 5)]]⟩ := by
  have h5 : (5 : Rat) + 0 = 5 := by norm_num
  have hn : (["AGENT_NAME", "BOOKED"]).find? isNameCol = some "AGENT_NAME" := by decide
  have hc : (["AGENT_NAME", "BOOKED"]).find? isCountCol = some "BOOKED" := by decide
  simp +decide [aggregateBooking, hn, hc, bookingKey, bookingCount, pyStrVal,
    toNumeric, getv, List.dedup, List.filter, h5]

/-- Witness for C10 on a one-row booking table with a null agent name. -/
theorem c10_witness :
    ∃ orow ∈ (⟨["Agent Name", "Total Inbound Booking"],
        [[("Agent Name", Val.str "nan"), ("Total Inbound Booking", Val.num 5)]]⟩
          : Table).rows,
      getv orow "Agent Name" = some (Val.str "nan") :=
  c10_null_booking_names_group_as_nan.2.2.1
    ⟨["AGENT_NAME", "BOOKED"], [[("AGENT_NAME", Val.null), ("BOOKED", Val.num 5)]]⟩
    "AGENT_NAME" "BOOKED"
    ⟨["Agent Name", "Total Inbound Booking"],
      [[("Agent Name", Val.str "nan"), ("Total Inbound Booking", Val.num 5)]]⟩
    (by decide) (by decide) c10_eval
    [("AGENT_NAME", Val.null), ("BOOKED", Val.num 5)] (by decide) (by decide)

/-! ## Join support lemmas -/

theorem getv_stripKey (jcols : List String) (b : Row) (k : String) :
    getv (stripKey jcols b) k = if k ∈ jcols then none else getv b k := by
  induction b with
  | nil => simp [stripKey, getv]
  | cons p b ih =>
    cases p with
    | mk k' v =>
      by_cases hk' : k' ∈ jcols
      · have hrw : stripKey jcols ((k', v) :: b) = stripKey jcols b := by
          simp [stripKey, List.filter_cons, hk']
        rw [hrw, ih]
        by_cases hk : k ∈ jcols
        · simp [hk]
        · have hne : k' ≠ k := fun he => hk (he ▸ hk')
          simp [hk, getv, if_neg hne]
      · have hrw : stripKey jcols ((k', v) :: b)
            = (k', v) :: stripKey jcols b := by
          simp [stripKey, List.filter_cons, hk']
        rw [hrw]
        by_cases hkk : k' = k
        · subst hkk
          simp [getv, hk']
        · by_cases hk : k ∈ jcols <;> simp [getv, hkk, ih, hk]

theorem getv_rightNulls (rcols jcols : List String) (k : String) :
    getv (rightNulls rcols jcols) k
      = if k ∈ rcols ∧ k ∉ jcols then some Val.null else none := by
  induction rcols with
  | nil => simp [rightNulls, getv]
  | cons c cs ih =>
    by_cases hc : c ∈ jcols
    · have hrw : rightNulls (c :: cs) jcols = rightNulls cs jcols := by
        simp [rightNulls, List.filter_cons, hc]
      rw [hrw, ih]
      by_cases hk : k ∈ jcols
      · simp [hk]
      · by_cases hkc : k = c
        · subst hkc
          exact absurd hc hk
        · simp [hk, hkc]
    · have hrw : rightNulls (c :: cs) jcols
          = (c, Val.null) :: rightNulls cs jcols := by
        simp [rightNulls, List.filter_cons, hc]
      rw [hrw]
      by_cases hkc : c = k
      · subst hkc
        simp [getv, hc]
      · have hkc' : ¬(k = c) := fun he => hkc he.symm
        by_cases hk : k ∈ jcols <;> simp [getv, hkc, hkc', ih, hk]

theorem getv_leftShell (lcols jcols : List String) (b : Row) (k : String) :
    getv (leftShell lcols jcols b) k
      = if k ∈ lcols then
          some (if k ∈ jcols then (getv b k).getD Val.null else Val.null)
        else none := by
  induction lcols with
  | nil => simp [leftShell, getv]
  | cons c cs ih =>
    by_cases hkc : c = k
    · subst hkc
      simp [leftShell, getv]
    · have hkc' : ¬(k = c) := fun he => hkc he.symm
      simp only [leftShell, List.map_cons] at ih ⊢
      simp [getv, hkc, hkc', ih]

theorem keyOf_eq_iff (jcols : List String) (a b : Row) :
    keyOf jcols a = keyOf jcols b ↔
      ∀ c ∈ jcols, (getv a c).getD Val.null = (getv b c).getD Val.null := by
  unfold keyOf
  induction jcols with
  | nil => simp
  | cons c cs ih => simp [ih]

theorem rowMatches_iff {jcols : List String} {a b : Row} :
    rowMatches jcols a b = true ↔ keyOf jcols a = keyOf jcols b := by
  simp [rowMatches]

theorem blockOf_of_no_match {r : Table} {jcols : List String} {a : Row}
    (h : r.rows.filter (rowMatches jcols a) = []) :
    blockOf r jcols a = [a ++ rightNulls r.cols jcols] := by
  unfold blockOf
  rw [h]

theorem blockOf_of_match {r : Table} {jcols : List String} {a : Row}
    (h : r.rows.filter (rowMatches jcols a) ≠ []) :
    blockOf r jcols a
      = (r.rows.filter (rowMatches jcols a)).map (fun b => a ++ stripKey jcols b) := by
  unfold blockOf
  cases hms : r.rows.filter (rowMatches jcols a) with
  | nil => exact absurd hms h
  | cons x xs => rfl

theorem mem_outerJoin_of_mem_block {l r : Table} {jcols : List String}
    {a : Row} (ha : a ∈ l.rows) {m : Row} (hm : m ∈ blockOf r jcols a) :
    m ∈ (outerJoin l r jcols).rows := by
  refine List.mem_append_left _ ?_
  refine List.mem_flatten.mpr ⟨blockOf r jcols a, ?_, hm⟩
  exact List.mem_map_of_mem _ ha

/-- Every left row survives a full outer join: some merged row agrees with it
on every left column. -/
theorem outerJoin_left_complete {l r : Table} {jcols : List String}
    (hwf : l.WF) {a : Row} (ha : a ∈ l.rows) :
    ∃ m ∈ (outerJoin l r jcols).rows, ∀ c ∈ l.cols, getv m c = getv a c := by
  have hsome : ∀ c ∈ l.cols, ∃ v, getv a c = some v := by
    intro c hc
    exact Option.isSome_iff_exists.mp (getv_isSome_of_wf (hwf a ha) hc)
  cases hms : r.rows.filter (rowMatches jcols a) with
  | nil =>
    refine ⟨a ++ rightNulls r.cols jcols,
      mem_outerJoin_of_mem_block ha ?_, ?_⟩
    · rw [blockOf_of_no_match hms]
      exact List.mem_singleton.mpr rfl
    · intro c hc
      obtain ⟨v, hv⟩ := hsome c hc
      rw [getv_append_left _ hv, hv]
  | cons b ms =>
    refine ⟨a ++ stripKey jcols b, mem_outerJoin_of_mem_block ha ?_, ?_⟩
    · rw [blockOf_of_match (by rw [hms]; exact List.cons_ne_nil _ _), hms]
      exact List.mem_map_of_mem _ (List.mem_cons_self _ _)
    · intro c hc
      obtain ⟨v, hv⟩ := hsome c hc
      rw [getv_append_left _ hv, hv]

/-- Every right row survives a full outer join: some merged row agrees with
it on every right column (given that the join columns live in both tables
and that left and right share no column outside the join key — true of the
performance/status aggregates, whose metric columns are disjoint). -/
theorem outerJoin_right_complete {l r : Table} {jcols : List String}
    (hlwf : l.WF) (hrwf : r.WF)
    (hjl : ∀ c ∈ jcols, c ∈ l.cols)
    (hdisj : ∀ c ∈ l.cols, c ∈ r.cols → c ∈ jcols)
    {b : Row} (hb : b ∈ r.rows) :
    ∃ m ∈ (outerJoin l r jcols).rows, ∀ c ∈ r.cols, getv m c = getv b c := by
  have hbsome : ∀ c ∈ r.cols, ∃ v, getv b c = some v := by
    intro c hc
    exact Option.isSome_iff_exists.mp (getv_isSome_of_wf (hrwf b hb) hc)
  by_cases hmatch : ∃ a ∈ l.rows, rowMatches jcols a b = true
  · obtain ⟨a, ha, hab⟩ := hmatch
    have hbfil : b ∈ r.rows.filter (rowMatches jcols a) :=
      List.mem_filter.mpr ⟨hb, hab⟩
    refine ⟨a ++ stripKey jcols b, mem_outerJoin_of_mem_block ha ?_, ?_⟩
    · rw [blockOf_of_match (fun he => by rw [he] at hbfil; exact absurd hbfil (List.not_mem_nil _))]
      exact List.mem_map_of_mem _ hbfil
    · intro c hc
      obtain ⟨w, hw⟩ := hbsome c hc
      by_cases hcj : c ∈ jcols
      · obtain ⟨v, hv⟩ : ∃ v, getv a c = some v := by
          exact Option.isSome_iff_exists.mp
            (getv_isSome_of_wf (hlwf a ha) (hjl c hcj))
        have hkeys := (keyOf_eq_iff jcols a b).mp (rowMatches_iff.mp hab) c hcj
        rw [hv, hw] at hkeys
        simp only [Option.getD_some] at hkeys
        rw [getv_append_left _ hv, hw, hkeys]
      · have hcl : c ∉ l.cols := fun hcl => hcj (hdisj c hcl hc)
        rw [getv_append_right _ (getv_eq_none_of_not_mem (hlwf a ha) hcl),
          getv_stripKey, if_neg hcj]
  · have hall : l.rows.all (fun a => !rowMatches jcols a b) = true := by
      rw [List.all_eq_true]
      intro a ha
      rw [Bool.not_eq_true']
      rcases hB : rowMatches jcols a b with _ | _
      · rfl
      · exact absurd ⟨a, ha, hB⟩ hmatch
    refine ⟨leftShell l.cols jcols b ++ stripKey jcols b, ?_, ?_⟩
    · refine List.mem_append_right _ ?_
      refine List.mem_map_of_mem _ ?_
      exact List.mem_filter.mpr ⟨hb, hall⟩
    · intro c hc
      obtain ⟨w, hw⟩ := hbsome c hc
      by_cases hcj : c ∈ jcols
      · have hcl : c ∈ l.cols := hjl c hcj
        have hshell := getv_leftShell l.cols jcols b c
        rw [if_pos hcl, if_pos hcj, hw] at hshell
        simp only [Option.getD_some] at hshell
        rw [getv_append_left _ hshell, hw]
      · have hcl : c ∉ l.cols := fun hcl => hcj (hdisj c hcl hc)
        have hshell := getv_leftShell l.cols jcols b c
        rw [if_neg hcl] at hshell
        rw [getv_append_right _ hshell, getv_stripKey, if_neg hcj]

/-- C1: for performance/status aggregates sharing at least one candidate
column, `merge_perf_status` full-outer-joins them on the candidate columns
present in both (so the merged table *is* the outer join on that key — the
record counts coincide), and every row of either input survives into some
merged row that agrees with it on all of its columns. The fallback key
never fires under the sharing hypothesis (indeed it is empty whenever the
primary key is). -/
theorem c1_merge_is_outer_join_on_shared_candidates :
    ∀ p s : Table, p.WF → s.WF →
      (∃ c ∈ candidateCols, c ∈ p.cols ∧ c ∈ s.cols) →
      (∀ c ∈ p.cols, c ∈ s.cols → c ∈ joinColsOf p s) →
      mergePerfStatus p s = some (outerJoin p s (joinColsOf p s))
      ∧ (∀ c, c ∈ joinColsOf p s ↔ c ∈ candidateCols ∧ c ∈ p.cols ∧ c ∈ s.cols)
      ∧ (joinColsOf p s = [] → fallbackJoinCols p s = [])
      ∧ (∀ a ∈ p.rows, ∃ m ∈ (outerJoin p s (joinColsOf p s)).rows,
          ∀ c ∈ p.cols, getv m c = getv a c)
      ∧ (∀ b ∈ s.rows, ∃ m ∈ (outerJoin p s (joinColsOf p s)).rows,
          ∀ c ∈ s.cols, getv m c = getv b c) := by
  intro p s hpwf hswf hshare hdisj
  have hmem : ∀ c, c ∈ joinColsOf p s ↔ c ∈ candidateCols ∧ c ∈ p.cols ∧ c ∈ s.cols := by
    intro c
    simp [joinColsOf, List.mem_filter, and_assoc]
  have hne : joinColsOf p s ≠ [] := by
    obtain ⟨c, hc, hcp, hcs⟩ := hshare
    intro hnil
    have : c ∈ joinColsOf p s := (hmem c).mpr ⟨hc, hcp, hcs⟩
    rw [hnil] at this
    exact absurd this (List.not_mem_nil _)
  refine ⟨?_, hmem, ?_, ?_, ?_⟩
  · have h0 : ¬((joinColsOf p s).isEmpty = true) := by
      rw [List.isEmpty_iff]
      exact hne
    simp only [mergePerfStatus, if_neg h0]
  · intro hnil
    exact absurd hnil hne
  · intro a ha
    exact outerJoin_left_complete hpwf ha
  · intro b hb
    refine outerJoin_right_complete hpwf hswf ?_ ?_ hb
    · intro c hc
      exact ((hmem c).mp hc).2.1
    · intro c hcp hcs
      exact hdisj c hcp hcs

/-- Witness for C1 on one-row performance/status aggregates sharing only the
agent-name column, with an agent on each side unknown to the other. -/
theorem c1_witness :
    mergePerfStatus
        ⟨["Agent Name", "Answered"], [[("Agent Name", Val.str "A"), ("Answered", Val.num 1)]]⟩
        ⟨["Agent Name", "Logged In"], [[("Agent Name", Val.str "B"), ("Logged In", Val.num 2)]]⟩
      = some (outerJoin
          ⟨["Agent Name", "Answered"], [[("Agent Name", Val.str "A"), ("Answered", Val.num 1)]]⟩
          ⟨["Agent Name", "Logged In"], [[("Agent Name", Val.str "B"), ("Logged In", Val.num 2)]]⟩
          (joinColsOf
            ⟨["Agent Name", "Answered"], [[("Agent Name", Val.str "A"), ("Answered", Val.num 1)]]⟩
            ⟨["Agent Name", "Logged In"], [[("Agent Name", Val.str "B"), ("Logged In", Val.num 2)]]⟩))
    ∧ (∃ m ∈ (outerJoin
          ⟨["Agent Name", "Answered"], [[("Agent Name", Val.str "A"), ("Answered", Val.num 1)]]⟩
          ⟨["Agent Name", "Logged In"], [[("Agent Name", Val.str "B"), ("Logged In", Val.num 2)]]⟩
          (joinColsOf
            ⟨["Agent Name", "Answered"], [[("Agent Name", Val.str "A"), ("Answered", Val.num 1)]]⟩
            ⟨["Agent Name", "Logged In"], [[("Agent Name", Val.str "B"), ("Logged In", Val.num 2)]]⟩)).rows,
        ∀ c ∈ ["Agent Name", "Logged In"],
          getv m c = getv [("Agent Name", Val.str "B"), ("Logged In", Val.num 2)] c) := by
  have h := c1_merge_is_outer_join_on_shared_candidates
    ⟨["Agent Name", "Answered"], [[("Agent Name", Val.str "A"), ("Answered", Val.num 1)]]⟩
    ⟨["Agent Name", "Logged In"], [[("Agent Name", Val.str "B"), ("Logged In", Val.num 2)]]⟩
    (by decide) (by decide) (by decide) (by decide)
  exact ⟨h.1, h.2.2.2.2 [("Agent Name", Val.str "B"), ("Logged In", Val.num 2)] (by decide)⟩

/-! ## Record-construction inversion and writer lemmas -/

theorem mapMO_some_mem {α β : Type} {f : α → Option β} :
    ∀ {l : List α} {l' : List β}, mapMO f l = some l' →
      ∀ b ∈ l', ∃ a ∈ l, f a = some b := by
  intro l
  induction l with
  | nil =>
    intro l' h b hb
    simp only [mapMO] at h
    cases h
    simp at hb
  | cons a as ih =>
    intro l' h b hb
    obtain ⟨b0, bs, hfa, hrest, rfl⟩ := mapMO_cons_some h
    rcases List.mem_cons.mp hb with rfl | hb'
    · exact ⟨a, List.mem_cons_self _ _, hfa⟩
    · obtain ⟨a', ha', hfa'⟩ := ih hrest b hb'
      exact ⟨a', List.mem_cons_of_mem _ ha', hfa'⟩

/-- Full characterization of one successful `fill_template` loop iteration. -/
theorem recOfRow_some {today : Date} {r : Row} {rec : Rec}
    (h : recOfRow today r = some rec) :
    rec.agentName = (getv r "Agent Name").getD (Val.str "")
    ∧ rec.division = (getv r "Division Name").getD (Val.str "")
    ∧ rec.date = parseIntervalDate today ((getv r "Interval Start").getD Val.null)
    ∧ rec.logIn = getv r "Log In"
    ∧ rec.logOut = getv r "Log Out"
    ∧ rec.loggedInSeconds = getv r "Logged In"
    ∧ rec.loggedInDuration = secondsToExcelTime (getv r "Logged In")
    ∧ floatOrZero (getv r "Answered") = some rec.answered
    ∧ rec.inqAmb = rec.answered
    ∧ floatOrZero (getv r "Outbound") = some rec.outbound
    ∧ floatOrZero (getv r "Total Inbound Booking") = some rec.inboundBooking
    ∧ floatOrZero (getv r "Total ACW") = some rec.totalAcwSec
    ∧ rec.totalAcwExcel = secondsToExcelTime (some (Val.num rec.totalAcwSec))
    ∧ avgHandleSecOf (getv r "Total Handle") rec.answered (getv r "Avg Handle")
        = some rec.avgHandleSec
    ∧ rec.avgHandleTime = secondsToHhmmss (rec.avgHandleSec.map Val.num) := by
  simp only [recOfRow] at h
  cases h1 : floatOrZero (getv r "Answered") with
  | none => rw [h1] at h; simp [optBind_none] at h
  | some answered =>
    rw [h1] at h
    rw [optBind_some] at h
    cases h2 : floatOrZero (getv r "Outbound") with
    | none => rw [h2] at h; simp [optBind_none] at h
    | some outbound =>
      rw [h2] at h
      rw [optBind_some] at h
      cases h3 : floatOrZero (getv r "Total Inbound Booking") with
      | none => rw [h3] at h; simp [optBind_none] at h
      | some inboundBooking =>
        rw [h3] at h
        rw [optBind_some] at h
        cases h4 : floatOrZero (getv r "Total ACW") with
        | none => rw [h4] at h; simp [optBind_none] at h
        | some totalAcwSec =>
          rw [h4] at h
          rw [optBind_some] at h
          cases h5 : avgHandleSecOf (getv r "Total Handle") answered
              (getv r "Avg Handle") with
          | none => rw [h5] at h; simp [optBind_none] at h
          | some avgHandleSec =>
            rw [h5] at h
            rw [optBind_some] at h
            cases h
            exact ⟨rfl, rfl, rfl, rfl, rfl, rfl, rfl, rfl, rfl, rfl, rfl, rfl,
              rfl, h5, rfl⟩

theorem fillTemplate_some {today : Date} {ws : Sheet} {df : Table} {sh : Sheet}
    {recs : List Rec} (h : fillTemplate today ws df = some (sh, recs)) :
    mapMO (recOfRow today) df.rows = some recs
    ∧ sh.maxRow = ws.maxRow
    ∧ sh.cells = writeRecs (clearRegion ws.maxRow ws.cells) 3 recs := by
  unfold fillTemplate at h
  cases hm : mapMO (recOfRow today) df.rows with
  | none => rw [hm] at h; simp at h
  | some recs2 =>
    rw [hm] at h
    simp only [Option.map_some', Option.some.injEq, Prod.mk.injEq] at h
    obtain ⟨h1, h2⟩ := h
    subst h2
    exact ⟨rfl, by rw [← h1], by rw [← h1]⟩

theorem applyRec_ne_row {g : Grid} {ri : Nat} {rec : Rec} {r c : Nat}
    (h : r ≠ ri) : applyRec g ri rec r c = g r c := by
  simp [applyRec, h]

theorem applyRec_congr {g g2 : Grid} {ri : Nat} {rec : Rec} {r c : Nat}
    (h : g r c = g2 r c) : applyRec g ri rec r c = applyRec g2 ri rec r c := by
  unfold applyRec
  rw [h]

theorem writeRecs_out {g : Grid} {start : Nat} {recs : List Rec} {r c : Nat}
    (h : r < start ∨ start + recs.length ≤ r) :
    writeRecs g start recs r c = g r c := by
  induction recs generalizing g start with
  | nil => rfl
  | cons rec rest ih =>
    have hne : r ≠ start := by
      rcases h with h | h
      · omega
      · simp only [List.length_cons] at h; omega
    have h' : r < start + 1 ∨ (start + 1) + rest.length ≤ r := by
      rcases h with h | h
      · exact Or.inl (by omega)
      · simp only [List.length_cons] at h; exact Or.inr (by omega)
    rw [writeRecs, ih h', applyRec_ne_row hne]

theorem writeRecs_at {g : Grid} {start : Nat} {recs : List Rec}
    (i : Nat) (hi : i < recs.length) (c : Nat) :
    writeRecs g start recs (start + i) c
      = applyRec g (start + i) (recs.get ⟨i, hi⟩) (start + i) c := by
  induction recs generalizing g start i with
  | nil => simp at hi
  | cons rec rest ih =>
    cases i with
    | zero =>
      rw [writeRecs, writeRecs_out (Or.inl (by omega))]
      simp
    | succ j =>
      have hj : j < rest.length := by simpa using hi
      have hidx : start + (j + 1) = (start + 1) + j := by omega
      rw [writeRecs, hidx, ih j hj]
      have hgrid : applyRec g start rec ((start + 1) + j) c = g ((start + 1) + j) c :=
        applyRec_ne_row (by omega)
      rw [applyRec_congr hgrid]
      simp

theorem applyRec_agentName (g : Grid) (ri : Nat) (rec : Rec) :
    applyRec g ri rec ri 2 = CellVal.pval rec.agentName := by
  simp [applyRec]

/-- C4: every record rendered into either output carries a non-null agent
display name: after the merge (and optional booking join) the null-agent
filter drops null-named records before rendering, a missing agent-name
column defaults to the empty string, and the spreadsheet's column B at row
`3+i` receives exactly that non-null name. -/
theorem c4_rendered_records_have_agent_names :
    ∀ (today : Date) (ws : Sheet) (t : Table), t.WF →
      ∀ (sh : Sheet) (recs : List Rec),
        fillTemplate today ws (dropNullAgent t) = some (sh, recs) →
        (∀ rec ∈ recs, rec.agentName ≠ Val.null)
        ∧ ∀ (i : Nat) (hi : i < recs.length),
            sh.cells (3 + i) 2 = CellVal.pval ((recs.get ⟨i, hi⟩).agentName) := by
  intro today ws t hwf sh recs hfill
  obtain ⟨hmap, hmax, hcells⟩ := fillTemplate_some hfill
  constructor
  · intro rec hrec
    obtain ⟨r, hr, hrow⟩ := mapMO_some_mem hmap rec hrec
    have hname := (recOfRow_some hrow).1
    by_cases hcol : "Agent Name" ∈ t.cols
    · have hdrop : r ∈ t.rows.filter (fun r => !(isna (getv r "Agent Name"))) := by
        simpa [dropNullAgent, if_pos hcol] using hr
      have hkeep := (List.mem_filter.mp hdrop).2
      rw [Bool.not_eq_true'] at hkeep
      cases hv : getv r "Agent Name" with
      | none => rw [hv] at hkeep; simp [isna] at hkeep
      | some v =>
        cases v with
        | null => rw [hv] at hkeep; simp [isna] at hkeep
        | str s => rw [hname, hv]; simp
        | num q => rw [hname, hv]; simp
    · have hr' : r ∈ t.rows := by
        simpa [dropNullAgent, if_neg hcol] using hr
      have hnone : getv r "Agent Name" = none :=
        getv_eq_none_of_not_mem (hwf r hr') hcol
      rw [hname, hnone]
      simp
  · intro i hi
    rw [hcells, writeRecs_at i hi 2, applyRec_agentName]

/-- Concrete evaluation for the C4 witness: a merged table with a null-named
status-only row and a named row renders exactly one record. -/
theorem c4_eval :
    fillTemplate ⟨2025, 1, 1⟩ ⟨2, fun _ _ => CellVal.empty⟩
        (dropNullAgent ⟨["Agent Name"],
          [[("Agent Name", Val.null)], [("Agent Name", Val.str "A")]]⟩)
      = some (⟨2, writeRecs (clearRegion 2 (fun _ _ => CellVal.empty)) 3
            [{ date := ⟨2025, 1, 1⟩, agentName := Val.str "A",
               division := Val.str "", logIn := none, logOut := none,
               loggedInSeconds := none, loggedInDuration := none,
               answered := 0, inqAmb := 0, outbound := 0, inboundBooking := 0,
               totalAcwSec := 0, totalAcwExcel := some ((0 : Rat) / 86400),
               avgHandleSec := none, avgHandleTime := none }]⟩,
          [{ date := ⟨2025, 1, 1⟩, agentName := Val.str "A",
             division := Val.str "", logIn := none, logOut := none,
             loggedInSeconds := none, loggedInDuration := none,
             answered := 0, inqAmb := 0, outbound := 0, inboundBooking := 0,
             totalAcwSec := 0, totalAcwExcel := some ((0 : Rat) / 86400),
             avgHandleSec := none, avgHandleTime := none }]) := by
  rfl

/-- Witness for C4: the null-agent-name status row is dropped, the surviving
record's name is non-null, and row 3 column B of the sheet carries it. -/
theorem c4_witness :
    (Val.str "A" ≠ Val.null)
    ∧ (writeRecs (clearRegion 2 (fun _ _ => CellVal.empty)) 3
        [{ date := ⟨2025, 1, 1⟩, agentName := Val.str "A",
           division := Val.str "", logIn := none, logOut := none,
           loggedInSeconds := none, loggedInDuration := none,
           answered := 0, inqAmb := 0, outbound := 0, inboundBooking := 0,
           totalAcwSec := 0, totalAcwExcel := some ((0 : Rat) / 86400),
           avgHandleSec := none, avgHandleTime := none }]) 3 2
      = CellVal.pval (Val.str "A") := by
  have h := c4_rendered_records_have_agent_names ⟨2025, 1, 1⟩
    ⟨2, fun _ _ => CellVal.empty⟩
    ⟨["Agent Name"], [[("Agent Name", Val.null)], [("Agent Name", Val.str "A")]]⟩
    (by decide) _ _ c4_eval
  exact ⟨h.1 _ (List.mem_singleton.mpr rfl), h.2 0 (by simp)⟩

/-! ## Booking left-join support lemmas -/

theorem getv_append_single_ne {a : Row} {k0 : String} {v : Val} {c : String}
    (h : c ≠ k0) : getv (a ++ [(k0, v)]) c = getv a c := by
  rw [getv_append]
  cases hg : getv a c with
  | none =>
    simp only [getv, if_neg (fun he : k0 = c => h he.symm)]
  | some w => rfl

theorem getv_append_single_self {a : Row} {k0 : String} {v : Val}
    (h : getv a k0 = none) : getv (a ++ [(k0, v)]) k0 = some v := by
  rw [getv_append, h]
  simp [getv]

theorem bookingAgg_shape {bdf bagg : Table}
    (h : aggregateBooking bdf = Except.ok bagg) :
    bagg.cols = ["Agent Name", "Total Inbound Booking"]
    ∧ (∀ b ∈ bagg.rows, ∃ (k : String) (q : Rat),
        b = [("Agent Name", Val.str k), ("Total Inbound Booking", Val.num q)])
    ∧ (bagg.rows.map (fun b => getv b "Agent Name")).Nodup := by
  obtain ⟨nameCol, countCol, hn, hc, rfl⟩ := aggregateBooking_ok_inv h
  refine ⟨rfl, ?_, ?_⟩
  · intro b hb
    obtain ⟨k, hk, rfl⟩ := List.mem_map.mp hb
    exact ⟨k, _, rfl⟩
  · rw [List.map_map]
    have hfun : ((fun b => getv b "Agent Name") ∘ (fun k =>
        ([("Agent Name", Val.str k),
          ("Total Inbound Booking",
           Val.num (((bdf.rows.filter
               (fun r => decide (bookingKey nameCol r = k))).map
             (bookingCount countCol)).sum))] : Row)))
        = fun k => some (Val.str k) := by
      funext k
      simp [Function.comp, getv]
    rw [hfun]
    exact (List.nodup_dedup _).map (fun x y hxy => by simpa using hxy)

theorem blockOf_booking {bagg : Table}
    (hcols : bagg.cols = ["Agent Name", "Total Inbound Booking"])
    (hshape : ∀ b ∈ bagg.rows, ∃ (k : String) (q : Rat),
        b = [("Agent Name", Val.str k), ("Total Inbound Booking", Val.num q)])
    (hnd : (bagg.rows.map (fun b => getv b "Agent Name")).Nodup)
    (a : Row) :
    blockOf bagg ["Agent Name"] a
        = [a ++ [("Total Inbound Booking", bookingValFor bagg a)]]
    ∧ (bookingValFor bagg a = Val.null
       ∨ ∃ b ∈ bagg.rows, rowMatches ["Agent Name"] a b = true
          ∧ getv b "Agent Name" = some ((getv a "Agent Name").getD Val.null)
          ∧ (∃ q : Rat, bookingValFor bagg a = Val.num q)
          ∧ getv b "Total Inbound Booking" = some (bookingValFor bagg a)) := by
  cases hms : bagg.rows.filter (rowMatches ["Agent Name"] a) with
  | nil =>
    have hval : bookingValFor bagg a = Val.null := by
      unfold bookingValFor
      rw [hms]
    constructor
    · rw [blockOf_of_no_match hms, hval, hcols]
      rfl
    · exact Or.inl hval
  | cons b ms =>
    have hbfil : b ∈ bagg.rows.filter (rowMatches ["Agent Name"] a) := by
      rw [hms]
      exact List.mem_cons_self _ _
    have hbrows : b ∈ bagg.rows := (List.mem_filter.mp hbfil).1
    have hbmatch : rowMatches ["Agent Name"] a b = true :=
      (List.mem_filter.mp hbfil).2
    obtain ⟨k, q, rfl⟩ := hshape b hbrows
    have hkeya : (getv a "Agent Name").getD Val.null = Val.str k := by
      have hk := (keyOf_eq_iff _ _ _).mp (rowMatches_iff.mp hbmatch)
        "Agent Name" (List.mem_singleton.mpr rfl)
      rw [hk]
      simp [getv]
    have hmsnil : ms = [] := by
      cases ms with
      | nil => rfl
      | cons b2 ms2 =>
        have hb2fil : b2 ∈ bagg.rows.filter (rowMatches ["Agent Name"] a) := by
          rw [hms]
          exact List.mem_cons_of_mem _ (List.mem_cons_self _ _)
        have hb2rows : b2 ∈ bagg.rows := (List.mem_filter.mp hb2fil).1
        have hb2match : rowMatches ["Agent Name"] a b2 = true :=
          (List.mem_filter.mp hb2fil).2
        obtain ⟨k2, q2, rfl⟩ := hshape b2 hb2rows
        have hkeya2 : (getv a "Agent Name").getD Val.null = Val.str k2 := by
          have hk := (keyOf_eq_iff _ _ _).mp (rowMatches_iff.mp hb2match)
            "Agent Name" (List.mem_singleton.mpr rfl)
          rw [hk]
          simp [getv]
        have hkk : k = k2 := by
          have := hkeya.symm.trans hkeya2
          simpa using this
        subst hkk
        have hsubnd : ((bagg.rows.filter
            (rowMatches ["Agent Name"] a)).map
              (fun b => getv b "Agent Name")).Nodup :=
          hnd.sublist ((List.filter_sublist _).map _)
        rw [hms] at hsubnd
        simp [getv] at hsubnd
    subst hmsnil
    have hval : bookingValFor bagg a = Val.num q := by
      unfold bookingValFor
      rw [hms]
      simp [getv]
    constructor
    · rw [blockOf_of_match (by rw [hms]; exact List.cons_ne_nil _ _), hms, hval]
      have hstrip : stripKey ["Agent Name"]
          ([("Agent Name", Val.str k), ("Total Inbound Booking", Val.num q)] : Row)
          = [("Total Inbound Booking", Val.num q)] := by
        simp [stripKey, List.filter]
      rw [List.map_cons, List.map_nil, hstrip]
    · refine Or.inr ⟨_, hbrows, hbmatch, ?_, ⟨q, hval⟩, ?_⟩
      · rw [hkeya]
        simp [getv]
      · rw [hval]
        simp [getv]

theorem flatten_map_singleton {α β : Type} (g : α → β) (l : List α) :
    (l.map (fun a => [g a])).flatten = l.map g := by
  induction l with
  | nil => rfl
  | cons a l ih => simp [ih]

theorem leftJoin_booking_rows {merged bagg : Table}
    (hcols : bagg.cols = ["Agent Name", "Total Inbound Booking"])
    (hshape : ∀ b ∈ bagg.rows, ∃ (k : String) (q : Rat),
        b = [("Agent Name", Val.str k), ("Total Inbound Booking", Val.num q)])
    (hnd : (bagg.rows.map (fun b => getv b "Agent Name")).Nodup) :
    (leftJoin merged bagg ["Agent Name"]).rows
      = merged.rows.map
          (fun a => a ++ [("Total Inbound Booking", bookingValFor bagg a)]) := by
  show (leftBlocks merged bagg ["Agent Name"]).flatten = _
  unfold leftBlocks
  rw [List.map_congr_left (fun a _ => (blockOf_booking hcols hshape hnd a).1),
    flatten_map_singleton]

/-- Success characterization of one fill-loop iteration. -/
theorem recOfRow_isSome_iff {today : Date} {r : Row} :
    (recOfRow today r).isSome = true ↔
      ∃ answered : Rat, floatOrZero (getv r "Answered") = some answered
        ∧ (floatOrZero (getv r "Outbound")).isSome = true
        ∧ (floatOrZero (getv r "Total Inbound Booking")).isSome = true
        ∧ (floatOrZero (getv r "Total ACW")).isSome = true
        ∧ (avgHandleSecOf (getv r "Total Handle") answered
            (getv r "Avg Handle")).isSome = true := by
  simp only [recOfRow]
  cases h1 : floatOrZero (getv r "Answered") with
  | none => simp [optBind_none]
  | some answered =>
    rw [optBind_some]
    cases h2 : floatOrZero (getv r "Outbound") with
    | none => simp [optBind_none]
    | some outbound =>
      rw [optBind_some]
      cases h3 : floatOrZero (getv r "Total Inbound Booking") with
      | none => simp [optBind_none]
      | some inboundBooking =>
        rw [optBind_some]
        cases h4 : floatOrZero (getv r "Total ACW") with
        | none => simp [optBind_none]
        | some totalAcwSec =>
          rw [optBind_some]
          cases h5 : avgHandleSecOf (getv r "Total Handle") answered
              (getv r "Avg Handle") with
          | none => simp [optBind_none, h5]
          | some avgHandleSec => simp [optBind_some, h5]

/-- Appending the booking cell changes exactly the `inboundBooking` field of
the record a row yields, and never its success. -/
theorem recOfRow_booking_ext {today : Date} {a : Row} {v : Val}
    (ha : getv a "Total Inbound Booking" = none)
    (hv : v = Val.null ∨ ∃ q : Rat, v = Val.num q) :
    ((recOfRow today (a ++ [("Total Inbound Booking", v)])).isSome
        = (recOfRow today a).isSome)
    ∧ (∀ rec rec', recOfRow today a = some rec →
        recOfRow today (a ++ [("Total Inbound Booking", v)]) = some rec' →
        rec.inboundBooking = 0
        ∧ rec' = { rec with inboundBooking := rec'.inboundBooking }
        ∧ floatOrZero (some v) = some rec'.inboundBooking) := by
  have heq : ∀ c : String, c ≠ "Total Inbound Booking" →
      getv (a ++ [("Total Inbound Booking", v)]) c = getv a c :=
    fun c hc => getv_append_single_ne hc
  have htib : getv (a ++ [("Total Inbound Booking", v)]) "Total Inbound Booking"
      = some v := getv_append_single_self ha
  have hfv : ∃ w : Rat, floatOrZero (some v) = some w := by
    rcases hv with rfl | ⟨q, rfl⟩
    · exact ⟨0, rfl⟩
    · exact ⟨q, rfl⟩
  obtain ⟨w, hw⟩ := hfv
  constructor
  · rw [Bool.eq_iff_iff, recOfRow_isSome_iff, recOfRow_isSome_iff,
      heq "Answered" (by decide), heq "Outbound" (by decide),
      heq "Total ACW" (by decide), heq "Total Handle" (by decide),
      heq "Avg Handle" (by decide), htib, ha, hw]
    simp [floatOrZero]
  · intro rec rec' hrec hrec'
    obtain ⟨hA1, hA2, hA3, hA4, hA5, hA6, hA7, hA8, hA9, hA10, hA11, hA12,
      hA13, hA14, hA15⟩ := recOfRow_some hrec
    obtain ⟨hB1, hB2, hB3, hB4, hB5, hB6, hB7, hB8, hB9, hB10, hB11, hB12,
      hB13, hB14, hB15⟩ := recOfRow_some hrec'
    rw [heq "Agent Name" (by decide)] at hB1
    rw [heq "Division Name" (by decide)] at hB2
    rw [heq "Interval Start" (by decide)] at hB3
    rw [heq "Log In" (by decide)] at hB4
    rw [heq "Log Out" (by decide)] at hB5
    rw [heq "Logged In" (by decide)] at hB6 hB7
    rw [heq "Answered" (by decide)] at hB8
    rw [heq "Outbound" (by decide)] at hB10
    rw [htib] at hB11
    rw [heq "Total ACW" (by decide)] at hB12
    rw [heq "Total Handle" (by decide), heq "Avg Handle" (by decide)] at hB14
    have hib : rec.inboundBooking = 0 := by
      rw [ha] at hA11
      simpa [floatOrZero] using hA11.symm
    have hAns : rec'.answered = rec.answered :=
      Option.some.inj (hB8.symm.trans hA8)
    have hOut : rec'.outbound = rec.outbound :=
      Option.some.inj (hB10.symm.trans hA10)
    have hAcw : rec'.totalAcwSec = rec.totalAcwSec :=
      Option.some.inj (hB12.symm.trans hA12)
    have hAvg : rec'.avgHandleSec = rec.avgHandleSec := by
      rw [hAns] at hB14
      exact Option.some.inj (hB14.symm.trans hA14)
    refine ⟨hib, ?_, hB11⟩
    refine Rec.ext ?_ ?_ ?_ ?_ ?_ ?_ ?_ ?_ ?_ ?_ ?_ ?_ ?_ ?_ ?_
    · rw [hB3, ← hA3]
    · rw [hB1, ← hA1]
    · rw [hB2, ← hA2]
    · rw [hB4, ← hA4]
    · rw [hB5, ← hA5]
    · rw [hB6, ← hA6]
    · rw [hB7, ← hA7]
    · exact hAns
    · rw [hB9, hAns, ← hA9]
    · exact hOut
    · rfl
    · exact hAcw
    · rw [hB13, hAcw, ← hA13]
    · exact hAvg
    · rw [hB15, hAvg, ← hA15]

theorem mapMO_map {α β γ : Type} (f : β → Option γ) (g : α → β) (l : List α) :
    mapMO f (l.map g) = mapMO (fun a => f (g a)) l := by
  induction l with
  | nil => rfl
  | cons a l ih => simp [mapMO, ih]

/-- C2: booking enrichment is a pure left augmentation. With or without a
booking aggregate the pipeline tail succeeds or fails together, produces the
same number of records in the same order, and each pair of corresponding
records agrees on every field except `inboundBooking` — zero without booking
data, and with it either zero (agent unmatched) or the matched booking row's
summed count for exactly that record's agent name. -/
theorem c2_booking_is_pure_left_augmentation :
    ∀ (today : Date) (merged bdf bagg : Table),
      merged.WF → "Total Inbound Booking" ∉ merged.cols →
      aggregateBooking bdf = Except.ok bagg →
      ((runRecords today merged (some bagg)).isSome
          = (runRecords today merged none).isSome)
      ∧ (∀ rs rs', runRecords today merged none = some rs →
          runRecords today merged (some bagg) = some rs' →
          rs'.length = rs.length
          ∧ ∀ (i : Nat) (hi : i < rs.length) (hi' : i < rs'.length),
              (rs.get ⟨i, hi⟩).inboundBooking = 0
              ∧ rs'.get ⟨i, hi'⟩ = { rs.get ⟨i, hi⟩ with
                  inboundBooking := (rs'.get ⟨i, hi'⟩).inboundBooking }
              ∧ ((rs'.get ⟨i, hi'⟩).inboundBooking = 0
                 ∨ ∃ b ∈ bagg.rows,
                     getv b "Agent Name" = some ((rs'.get ⟨i, hi'⟩).agentName)
                     ∧ getv b "Total Inbound Booking"
                        = some (Val.num ((rs'.get ⟨i, hi'⟩).inboundBooking)))) := by
  intro today merged bdf bagg hwf hno hok
  obtain ⟨hcols, hshape, hnd⟩ := bookingAgg_shape hok
  by_cases hAN : "Agent Name" ∈ merged.cols
  · -- the join happens; it appends exactly one booking cell per row
    have hANb : "Agent Name" ∈ bagg.cols := by
      rw [hcols]
      exact List.mem_cons_self _ _
    have happ : applyBooking merged (some bagg)
        = leftJoin merged bagg ["Agent Name"] := by
      simp only [applyBooking]
      rw [if_pos ⟨hAN, hANb⟩]
    have hlrows := @leftJoin_booking_rows merged bagg hcols hshape hnd
    have hANlj : "Agent Name" ∈ (leftJoin merged bagg ["Agent Name"]).cols :=
      List.mem_append_left _ hAN
    have hdropA : (dropNullAgent (leftJoin merged bagg ["Agent Name"])).rows
        = (merged.rows.filter (fun r => !(isna (getv r "Agent Name")))).map
            (fun a => a ++ [("Total Inbound Booking", bookingValFor bagg a)]) := by
      unfold dropNullAgent
      rw [if_pos hANlj]
      show (leftJoin merged bagg ["Agent Name"]).rows.filter _ = _
      rw [hlrows, List.filter_map]
      congr 1
      apply List.filter_congr
      intro a _
      show (!(isna (getv (a ++ [("Total Inbound Booking", bookingValFor bagg a)])
          "Agent Name"))) = _
      rw [getv_append_single_ne (by decide)]
    have hdropB : (dropNullAgent merged).rows
        = merged.rows.filter (fun r => !(isna (getv r "Agent Name"))) := by
      unfold dropNullAgent
      rw [if_pos hAN]
    have hrunB : runRecords today merged none
        = mapMO (recOfRow today)
            (merged.rows.filter (fun r => !(isna (getv r "Agent Name")))) := by
      unfold runRecords
      rw [show applyBooking merged none = merged from rfl, hdropB]
    have hrunA : runRecords today merged (some bagg)
        = mapMO (fun a => recOfRow today
            (a ++ [("Total Inbound Booking", bookingValFor bagg a)]))
            (merged.rows.filter (fun r => !(isna (getv r "Agent Name")))) := by
      unfold runRecords
      rw [happ]
      rw [show (dropNullAgent (leftJoin merged bagg ["Agent Name"])).rows
          = _ from hdropA, mapMO_map]
    have hrowfacts : ∀ a ∈ merged.rows.filter
        (fun r => !(isna (getv r "Agent Name"))),
        getv a "Total Inbound Booking" = none
        ∧ (bookingValFor bagg a = Val.null
           ∨ ∃ q : Rat, bookingValFor bagg a = Val.num q) := by
      intro a haL
      have hamem : a ∈ merged.rows := (List.mem_filter.mp haL).1
      refine ⟨getv_eq_none_of_not_mem (hwf a hamem) hno, ?_⟩
      rcases (blockOf_booking hcols hshape hnd a).2 with h | ⟨b, _, _, _, ⟨q, hq⟩, _⟩
      · exact Or.inl h
      · exact Or.inr ⟨q, hq⟩
    constructor
    · rw [hrunA, hrunB, Bool.eq_iff_iff, mapMO_isSome_iff, mapMO_isSome_iff]
      constructor
      · intro hall a haL
        rw [← (recOfRow_booking_ext (hrowfacts a haL).1 (hrowfacts a haL).2).1]
        exact hall a haL
      · intro hall a haL
        rw [(recOfRow_booking_ext (hrowfacts a haL).1 (hrowfacts a haL).2).1]
        exact hall a haL
    · intro rs rs' hrs hrs'
      rw [hrunB] at hrs
      rw [hrunA] at hrs'
      have hlen : rs.length
          = (merged.rows.filter (fun r => !(isna (getv r "Agent Name")))).length :=
        mapMO_some_length _ _ _ hrs
      have hlen' : rs'.length
          = (merged.rows.filter (fun r => !(isna (getv r "Agent Name")))).length :=
        mapMO_some_length _ _ _ hrs'
      refine ⟨by omega, ?_⟩
      intro i hi hi'
      have hiL : i < (merged.rows.filter
          (fun r => !(isna (getv r "Agent Name")))).length := by omega
      have h1 := mapMO_some_get _ _ _ hrs i hiL hi
      have h2 := mapMO_some_get _ _ _ hrs' i hiL hi'
      have haL : (merged.rows.filter (fun r => !(isna (getv r "Agent Name")))).get
          ⟨i, hiL⟩ ∈ merged.rows.filter (fun r => !(isna (getv r "Agent Name"))) :=
        List.get_mem _ _ _
      obtain ⟨hatib, hv⟩ := hrowfacts _ haL
      have hbext := (@recOfRow_booking_ext today _ _ hatib hv).2 _ _ h1 h2
      refine ⟨hbext.1, hbext.2.1, ?_⟩
      have hwev := hbext.2.2
      rcases (blockOf_booking hcols hshape hnd
          ((merged.rows.filter (fun r => !(isna (getv r "Agent Name")))).get
            ⟨i, hiL⟩)).2 with hnull | ⟨b, hbrow, hbm, hbname, ⟨q, hq⟩, hbtib⟩
      · left
        rw [hnull] at hwev
        simpa [floatOrZero] using hwev.symm
      · right
        rw [hq] at hwev
        have hibq : (rs'.get ⟨i, hi'⟩).inboundBooking = q := by
          simpa [floatOrZero] using hwev.symm
        refine ⟨b, hbrow, ?_, ?_⟩
        · have hArec := (recOfRow_some h2).1
          rw [getv_append_single_ne (by decide)] at hArec
          have hkeep := (List.mem_filter.mp haL).2
          rw [Bool.not_eq_true'] at hkeep
          cases hgA : getv ((merged.rows.filter
              (fun r => !(isna (getv r "Agent Name")))).get ⟨i, hiL⟩)
              "Agent Name" with
          | none => rw [hgA] at hkeep; simp [isna] at hkeep
          | some v0 =>
            rw [hgA] at hArec
            rw [hbname, hgA]
            simp only [Option.getD_some] at hArec ⊢
            rw [hArec]
        · rw [hibq, hbtib, hq]
  · -- no agent-name column: the booking join is skipped entirely
    have happ : applyBooking merged (some bagg) = merged := by
      simp only [applyBooking]
      rw [if_neg (fun hand : _ ∧ _ => hAN hand.1)]
    have hsame : runRecords today merged (some bagg)
        = runRecords today merged none := by
      unfold runRecords
      rw [happ, show applyBooking merged none = merged from rfl]
    have hdrop : dropNullAgent merged = merged := by
      unfold dropNullAgent
      rw [if_neg hAN]
    constructor
    · rw [hsame]
    · intro rs rs' hrs hrs'
      rw [hsame, hrs] at hrs'
      cases hrs'
      refine ⟨rfl, ?_⟩
      intro i hi hi'
      have hrs0 : mapMO (recOfRow today) merged.rows = some rs := by
        have h0 := hrs
        unfold runRecords at h0
        rw [show applyBooking merged none = merged from rfl, hdrop] at h0
        exact h0
      have hlen0 : rs.length = merged.rows.length := mapMO_some_length _ _ _ hrs0
      have hi0 : i < merged.rows.length := by omega
      have hrow := mapMO_some_get _ _ _ hrs0 i hi0 hi
      have hmem : merged.rows.get ⟨i, hi0⟩ ∈ merged.rows := List.get_mem _ _ _
      have hatib : getv (merged.rows.get ⟨i, hi0⟩) "Total Inbound Booking"
          = none := getv_eq_none_of_not_mem (hwf _ hmem) hno
      obtain ⟨_, _, _, _, _, _, _, _, _, _, h11, _, _, _, _⟩ := recOfRow_some hrow
      rw [hatib] at h11
      have hib : (rs.get ⟨i, hi⟩).inboundBooking = 0 := by
        simpa [floatOrZero] using h11.symm
      exact ⟨hib, rfl, Or.inl hib⟩

/-- Concrete evaluation of `aggregate_booking` for the C2 witness. -/
theorem c2_evalBagg :
    aggregateBooking (⟨["AGENT_NAME", "BOOKED"],
      [[("AGENT_NAME", Val.str "A"), ("BOOKED", Val.num 5)]]⟩ : Table)
      = Except.ok (⟨["Agent Name", "Total Inbound Booking"],
      [[("Agent Name", Val.str "A"), ("Total Inbound Booking", Val.num 5)]]⟩ : Table) := by
  have h5 : (5 : Rat) + 0 = 5 := by norm_num
  have hn : (["AGENT_NAME", "BOOKED"]).find? isNameCol = some "AGENT_NAME" := by decide
  have hc : (["AGENT_NAME", "BOOKED"]).find? isCountCol = some "BOOKED" := by decide
  simp +decide [aggregateBooking, hn, hc, bookingKey, bookingCount, pyStrVal,
    toNumeric, getv, List.dedup, List.filter, h5]

/-- The C2 witness pipeline without booking data. -/
theorem c2_evalNone :
    runRecords ⟨2025, 1, 1⟩ (⟨["Agent Name", "Answered"],
      [[("Agent Name", Val.str "A"), ("Answered", Val.num 2)],
       [("Agent Name", Val.str "B"), ("Answered", Val.num 1)]]⟩ : Table) none
      = some [{ date := ⟨2025, 1, 1⟩, agentName := Val.str "A", division := Val.str "",
                logIn := none, logOut := none, loggedInSeconds := none,
                loggedInDuration := none, answered := 2, inqAmb := 2, outbound := 0,
                inboundBooking := 0, totalAcwSec := 0,
                totalAcwExcel := some ((0 : Rat) / 86400), avgHandleSec := none,
                avgHandleTime := none },
        { date := ⟨2025, 1, 1⟩, agentName := Val.str "B", division := Val.str "",
                logIn := none, logOut := none, loggedInSeconds := none,
                loggedInDuration := none, answered := 1, inqAmb := 1, outbound := 0,
                inboundBooking := 0, totalAcwSec := 0,
                totalAcwExcel := some ((0 : Rat) / 86400), avgHandleSec := none,
                avgHandleTime := none }] := by
  rfl

/-- The C2 witness pipeline with the booking aggregate joined on. -/
theorem c2_evalSome :
    runRecords ⟨2025, 1, 1⟩ (⟨["Agent Name", "Answered"],
      [[("Agent Name", Val.str "A"), ("Answered", Val.num 2)],
       [("Agent Name", Val.str "B"), ("Answered", Val.num 1)]]⟩ : Table)
        (some (⟨["Agent Name", "Total Inbound Booking"],
      [[("Agent Name", Val.str "A"), ("Total Inbound Booking", Val.num 5)]]⟩ : Table))
      = some [{ date := ⟨2025, 1, 1⟩, agentName := Val.str "A", division := Val.str "",
                logIn := none, logOut := none, loggedInSeconds := none,
                loggedInDuration := none, answered := 2, inqAmb := 2, outbound := 0,
                inboundBooking := 5, totalAcwSec := 0,
                totalAcwExcel := some ((0 : Rat) / 86400), avgHandleSec := none,
                avgHandleTime := none },
        { date := ⟨2025, 1, 1⟩, agentName := Val.str "B", division := Val.str "",
                logIn := none, logOut := none, loggedInSeconds := none,
                loggedInDuration := none, answered := 1, inqAmb := 1, outbound := 0,
                inboundBooking := 0, totalAcwSec := 0,
                totalAcwExcel := some ((0 : Rat) / 86400), avgHandleSec := none,
                avgHandleTime := none }] := by
  rfl

/-- Witness for C2: agent A picks up booking count 5, agent B (unmatched) and
the without-booking run keep zero, and nothing else about the records
changes. -/
theorem c2_witness :
    (([{ date := ⟨2025, 1, 1⟩, agentName := Val.str "A", division := Val.str "",
                logIn := none, logOut := none, loggedInSeconds := none,
                loggedInDuration := none, answered := 2, inqAmb := 2, outbound := 0,
                inboundBooking := 5, totalAcwSec := 0,
                totalAcwExcel := some ((0 : Rat) / 86400), avgHandleSec := none,
                avgHandleTime := none },
       { date := ⟨2025, 1, 1⟩, agentName := Val.str "B", division := Val.str "",
                logIn := none, logOut := none, loggedInSeconds := none,
                loggedInDuration := none, answered := 1, inqAmb := 1, outbound := 0,
                inboundBooking := 0, totalAcwSec := 0,
                totalAcwExcel := some ((0 : Rat) / 86400), avgHandleSec := none,
                avgHandleTime := none }] : List Rec).length
      = ([{ date := ⟨2025, 1, 1⟩, agentName := Val.str "A", division := Val.str "",
                logIn := none, logOut := none, loggedInSeconds := none,
                loggedInDuration := none, answered := 2, inqAmb := 2, outbound := 0,
                inboundBooking := 0, totalAcwSec := 0,
                totalAcwExcel := some ((0 : Rat) / 86400), avgHandleSec := none,
                avgHandleTime := none },
         { date := ⟨2025, 1, 1⟩, agentName := Val.str "B", division := Val.str "",
                logIn := none, logOut := none, loggedInSeconds := none,
                loggedInDuration := none, answered := 1, inqAmb := 1, outbound := 0,
                inboundBooking := 0, totalAcwSec := 0,
                totalAcwExcel := some ((0 : Rat) / 86400), avgHandleSec := none,
                avgHandleTime := none }] : List Rec).length)
    ∧ ({ date := ⟨2025, 1, 1⟩, agentName := Val.str "A", division := Val.str "",
                logIn := none, logOut := none, loggedInSeconds := none,
                loggedInDuration := none, answered := 2, inqAmb := 2, outbound := 0,
                inboundBooking := 0, totalAcwSec := 0,
                totalAcwExcel := some ((0 : Rat) / 86400), avgHandleSec := none,
                avgHandleTime := none } : Rec).inboundBooking = 0
    ∧ ({ date := ⟨2025, 1, 1⟩, agentName := Val.str "A", division := Val.str "",
                logIn := none, logOut := none, loggedInSeconds := none,
                loggedInDuration := none, answered := 2, inqAmb := 2, outbound := 0,
                inboundBooking := 5, totalAcwSec := 0,
                totalAcwExcel := some ((0 : Rat) / 86400), avgHandleSec := none,
                avgHandleTime := none } : Rec)
        = { ({ date := ⟨2025, 1, 1⟩, agentName := Val.str "A", division := Val.str "",
                logIn := none, logOut := none, loggedInSeconds := none,
                loggedInDuration := none, answered := 2, inqAmb := 2, outbound := 0,
                inboundBooking := 0, totalAcwSec := 0,
                totalAcwExcel := some ((0 : Rat) / 86400), avgHandleSec := none,
                avgHandleTime := none } : Rec) with inboundBooking := (5 : Rat) }
    ∧ ((5 : Rat) = 0
       ∨ ∃ b ∈ (⟨["Agent Name", "Total Inbound Booking"],
      [[("Agent Name", Val.str "A"), ("Total Inbound Booking", Val.num 5)]]⟩ : Table).rows,
           getv b "Agent Name" = some (Val.str "A")
           ∧ getv b "Total Inbound Booking" = some (Val.num 5)) := by
  have h := c2_booking_is_pure_left_augmentation ⟨2025, 1, 1⟩
    (⟨["Agent Name", "Answered"],
      [[("Agent Name", Val.str "A"), ("Answered", Val.num 2)],
       [("Agent Name", Val.str "B"), ("Answered", Val.num 1)]]⟩ : Table)
    (⟨["AGENT_NAME", "BOOKED"],
      [[("AGENT_NAME", Val.str "A"), ("BOOKED", Val.num 5)]]⟩ : Table)
    (⟨["Agent Name", "Total Inbound Booking"],
      [[("Agent Name", Val.str "A"), ("Total Inbound Booking", Val.num 5)]]⟩ : Table)
    (by decide) (by decide) c2_evalBagg
  have h2 := h.2 _ _ c2_evalNone c2_evalSome
  have h3 := h2.2 0 (by decide) (by decide)
  exact ⟨h2.1, h3.1, h3.2.1, h3.2.2⟩

/-! ## Template-writer cell lemmas (C8) -/

theorem applyRec_col_out {g : Grid} {ri : Nat} {rec : Rec} {r c : Nat}
    (h : c < 1 ∨ 14 < c) : applyRec g ri rec r c = g r c := by
  have h1 : c ≠ 1 := by omega
  have h2 : c ≠ 2 := by omega
  have h3 : c ≠ 3 := by omega
  have h4 : c ≠ 4 := by omega
  have h5 : c ≠ 5 := by omega
  have h6 : c ≠ 6 := by omega
  have h7 : c ≠ 7 := by omega
  have h8 : c ≠ 8 := by omega
  have h9 : c ≠ 9 := by omega
  have h10 : c ≠ 10 := by omega
  have h11 : c ≠ 11 := by omega
  have h12 : c ≠ 12 := by omega
  have h13 : c ≠ 13 := by omega
  have h14 : c ≠ 14 := by omega
  by_cases hr : r = ri
  · subst hr
    simp [applyRec, h1, h2, h3, h4, h5, h6, h7, h8, h9, h10, h11, h12, h13, h14]
  · simp [applyRec, hr]

theorem writeRecs_col_out {g : Grid} {start : Nat} {recs : List Rec} {r c : Nat}
    (h : c < 1 ∨ 14 < c) : writeRecs g start recs r c = g r c := by
  induction recs generalizing g start with
  | nil => rfl
  | cons rec rest ih => rw [writeRecs, ih, applyRec_col_out h]

theorem applyRec_col1 (g : Grid) (ri : Nat) (rec : Rec) :
    applyRec g ri rec ri 1 = CellVal.datetime rec.date 6 30 := by
  simp [applyRec]

theorem applyRec_col6_none {g : Grid} {ri : Nat} {rec : Rec}
    (h : rec.loggedInDuration = none) : applyRec g ri rec ri 6 = g ri 6 := by
  simp [applyRec, h]

theorem applyRec_col13_some {g : Grid} {ri : Nat} {rec : Rec} {q : Rat}
    (h : rec.totalAcwExcel = some q) :
    applyRec g ri rec ri 13 = CellVal.ratv q := by
  simp [applyRec, h]

theorem applyRec_col14_none {g : Grid} {ri : Nat} {rec : Rec}
    (h : rec.avgHandleTime = none) : applyRec g ri rec ri 14 = g ri 14 := by
  simp [applyRec, h]

theorem clearRegion_in {maxRow : Nat} {g : Grid} {r c : Nat}
    (h1 : 3 ≤ r) (h2 : r ≤ maxRow) (h3 : 1 ≤ c) (h4 : c ≤ 14) :
    clearRegion maxRow g r c = CellVal.empty := by
  simp [clearRegion, h1, h2, h3, h4]

theorem clearRegion_out {maxRow : Nat} {g : Grid} {r c : Nat}
    (h : r < 3 ∨ maxRow < r ∨ c < 1 ∨ 14 < c) :
    clearRegion maxRow g r c = g r c := by
  unfold clearRegion
  rw [if_neg]
  omega

/-- C8 counterexample: on a template whose prior last row is 3, two records
are rendered, so the writer modifies row 4 — outside the claimed region
"rows 3 through the sheet's prior last row" — and a record with a missing
ACW value still gets 0 written into its column-M cell instead of the cell
being left empty by the clearing pass. -/
theorem c8_counterexample :
    fillTemplate ⟨2025, 1, 1⟩ ⟨3, fun _ _ => CellVal.empty⟩
        ⟨["Agent Name"], [[("Agent Name", Val.str "A")], [("Agent Name", Val.str "B")]]⟩
      = some (⟨3, writeRecs (clearRegion 3 (fun _ _ => CellVal.empty)) 3
          [{ date := ⟨2025, 1, 1⟩, agentName := Val.str "A", division := Val.str "",
             logIn := none, logOut := none, loggedInSeconds := none,
             loggedInDuration := none, answered := 0, inqAmb := 0, outbound := 0,
             inboundBooking := 0, totalAcwSec := 0,
             totalAcwExcel := some ((0 : Rat) / 86400), avgHandleSec := none,
             avgHandleTime := none },
           { date := ⟨2025, 1, 1⟩, agentName := Val.str "B", division := Val.str "",
             logIn := none, logOut := none, loggedInSeconds := none,
             loggedInDuration := none, answered := 0, inqAmb := 0, outbound := 0,
             inboundBooking := 0, totalAcwSec := 0,
             totalAcwExcel := some ((0 : Rat) / 86400), avgHandleSec := none,
             avgHandleTime := none }]⟩,
        [{ date := ⟨2025, 1, 1⟩, agentName := Val.str "A", division := Val.str "",
           logIn := none, logOut := none, loggedInSeconds := none,
           loggedInDuration := none, answered := 0, inqAmb := 0, outbound := 0,
           inboundBooking := 0, totalAcwSec := 0,
           totalAcwExcel := some ((0 : Rat) / 86400), avgHandleSec := none,
           avgHandleTime := none },
         { date := ⟨2025, 1, 1⟩, agentName := Val.str "B", division := Val.str "",
           logIn := none, logOut := none, loggedInSeconds := none,
           loggedInDuration := none, answered := 0, inqAmb := 0, outbound := 0,
           inboundBooking := 0, totalAcwSec := 0,
           totalAcwExcel := some ((0 : Rat) / 86400), avgHandleSec := none,
           avgHandleTime := none }])
    ∧ ¬ (writeRecs (clearRegion 3 (fun _ _ => CellVal.empty)) 3
          [{ date := ⟨2025, 1, 1⟩, agentName := Val.str "A", division := Val.str "",
             logIn := none, logOut := none, loggedInSeconds := none,
             loggedInDuration := none, answered := 0, inqAmb := 0, outbound := 0,
             inboundBooking := 0, totalAcwSec := 0,
             totalAcwExcel := some ((0 : Rat) / 86400), avgHandleSec := none,
             avgHandleTime := none },
           { date := ⟨2025, 1, 1⟩, agentName := Val.str "B", division := Val.str "",
             logIn := none, logOut := none, loggedInSeconds := none,
             loggedInDuration := none, answered := 0, inqAmb := 0, outbound := 0,
             inboundBooking := 0, totalAcwSec := 0,
             totalAcwExcel := some ((0 : Rat) / 86400), avgHandleSec := none,
             avgHandleTime := none }]) 4 1 = CellVal.empty
    ∧ getv [("Agent Name", Val.str "A")] "Total ACW" = none
    ∧ ¬ (writeRecs (clearRegion 3 (fun _ _ => CellVal.empty)) 3
          [{ date := ⟨2025, 1, 1⟩, agentName := Val.str "A", division := Val.str "",
             logIn := none, logOut := none, loggedInSeconds := none,
             loggedInDuration := none, answered := 0, inqAmb := 0, outbound := 0,
             inboundBooking := 0, totalAcwSec := 0,
             totalAcwExcel := some ((0 : Rat) / 86400), avgHandleSec := none,
             avgHandleTime := none },
           { date := ⟨2025, 1, 1⟩, agentName := Val.str "B", division := Val.str "",
             logIn := none, logOut := none, loggedInSeconds := none,
             loggedInDuration := none, answered := 0, inqAmb := 0, outbound := 0,
             inboundBooking := 0, totalAcwSec := 0,
             totalAcwExcel := some ((0 : Rat) / 86400), avgHandleSec := none,
             avgHandleTime := none }]) 3 13 = CellVal.empty := by
  refine ⟨rfl, ?_, rfl, ?_⟩ <;> decide

/-- C8 (amended): `fill_template` modifies only columns A-N of rows 3 through
`max(prior last row, 2 + record count)` — the prior-last-row bound alone is
wrong when more records than prior rows are written. It blanks rows 3..prior
last row first, writes one row per record in iteration order from row 3
(columns A/B shown), leaves the F (logged-in duration) and N (average handle
time) cells of a record missing that optional value exactly as the clearing
pass left them (empty inside the cleared zone, untouched beyond it), while
the M (ACW) cell is always written — a missing ACW is coerced to 0, not left
empty. Header rows 1-2 and everything outside columns A-N are untouched. -/
theorem c8_template_writer_frame :
    ∀ (today : Date) (ws : Sheet) (df : Table) (sh : Sheet) (recs : List Rec),
      fillTemplate today ws df = some (sh, recs) →
      sh.maxRow = ws.maxRow
      ∧ (∀ r c : Nat,
          r < 3 ∨ max ws.maxRow (2 + recs.length) < r ∨ c < 1 ∨ 14 < c →
          sh.cells r c = ws.cells r c)
      ∧ (∀ c, sh.cells 1 c = ws.cells 1 c ∧ sh.cells 2 c = ws.cells 2 c)
      ∧ (∀ r c, 3 ≤ r → r ≤ ws.maxRow → 3 + recs.length ≤ r → 1 ≤ c → c ≤ 14 →
          sh.cells r c = CellVal.empty)
      ∧ (∀ (i : Nat) (hi : i < recs.length),
          sh.cells (3 + i) 1 = CellVal.datetime ((recs.get ⟨i, hi⟩).date) 6 30
          ∧ sh.cells (3 + i) 2 = CellVal.pval ((recs.get ⟨i, hi⟩).agentName))
      ∧ (∀ (i : Nat) (hi : i < recs.length),
          (recs.get ⟨i, hi⟩).loggedInDuration = none →
          sh.cells (3 + i) 6
            = (if 3 + i ≤ ws.maxRow then CellVal.empty else ws.cells (3 + i) 6))
      ∧ (∀ (i : Nat) (hi : i < recs.length),
          (recs.get ⟨i, hi⟩).avgHandleTime = none →
          sh.cells (3 + i) 14
            = (if 3 + i ≤ ws.maxRow then CellVal.empty else ws.cells (3 + i) 14))
      ∧ (∀ (i : Nat) (hi : i < recs.length),
          sh.cells (3 + i) 13
            = CellVal.ratv ((recs.get ⟨i, hi⟩).totalAcwSec / 86400)) := by
  intro today ws df sh recs hfill
  obtain ⟨hmap, hmax, hcells⟩ := fillTemplate_some hfill
  have hm1 : ws.maxRow ≤ max ws.maxRow (2 + recs.length) := le_max_left _ _
  have hm2 : 2 + recs.length ≤ max ws.maxRow (2 + recs.length) := le_max_right _ _
  refine ⟨hmax, ?_, ?_, ?_, ?_, ?_, ?_, ?_⟩
  · intro r c hout
    rw [hcells]
    rcases hout with h | h | h | h
    · rw [writeRecs_out (Or.inl (by omega)), clearRegion_out (Or.inl h)]
    · rw [writeRecs_out (Or.inr (by omega)),
        clearRegion_out (Or.inr (Or.inl (by omega)))]
    · rw [writeRecs_col_out (Or.inl h),
        clearRegion_out (Or.inr (Or.inr (Or.inl h)))]
    · rw [writeRecs_col_out (Or.inr h),
        clearRegion_out (Or.inr (Or.inr (Or.inr h)))]
  · intro c
    constructor
    · rw [hcells, writeRecs_out (Or.inl (by omega)),
        clearRegion_out (Or.inl (by omega))]
    · rw [hcells, writeRecs_out (Or.inl (by omega)),
        clearRegion_out (Or.inl (by omega))]
  · intro r c h3 hmaxr hlen h1 h14
    rw [hcells, writeRecs_out (Or.inr (by omega)), clearRegion_in h3 hmaxr h1 h14]
  · intro i hi
    constructor
    · rw [hcells, writeRecs_at i hi 1, applyRec_col1]
    · rw [hcells, writeRecs_at i hi 2, applyRec_agentName]
  · intro i hi hnone
    rw [hcells, writeRecs_at i hi 6, applyRec_col6_none hnone]
    by_cases hr : 3 + i ≤ ws.maxRow
    · rw [if_pos hr, clearRegion_in (by omega) hr (by omega) (by omega)]
    · rw [if_neg hr, clearRegion_out (by omega)]
  · intro i hi hnone
    rw [hcells, writeRecs_at i hi 14, applyRec_col14_none hnone]
    by_cases hr : 3 + i ≤ ws.maxRow
    · rw [if_pos hr, clearRegion_in (by omega) hr (by omega) (by omega)]
    · rw [if_neg hr, clearRegion_out (by omega)]
  · intro i hi
    have hlen : recs.length = df.rows.length := mapMO_some_length _ _ _ hmap
    have hi0 : i < df.rows.length := by omega
    have hrow := mapMO_some_get _ _ _ hmap i hi0 hi
    have h13 := (recOfRow_some hrow).2.2.2.2.2.2.2.2.2.2.2.2.1
    have hq : (recs.get ⟨i, hi⟩).totalAcwExcel
        = some ((recs.get ⟨i, hi⟩).totalAcwSec / 86400) := by
      rw [h13]
      rfl
    rw [hcells, writeRecs_at i hi 13, applyRec_col13_some hq]

/-- Concrete evaluation for the C8 witness: one record, template extent 10. -/
theorem c8_eval :
    fillTemplate ⟨2025, 1, 1⟩ ⟨10, fun _ _ => CellVal.empty⟩
        ⟨["Agent Name"], [[("Agent Name", Val.str "A")]]⟩
      = some (⟨10, writeRecs (clearRegion 10 (fun _ _ => CellVal.empty)) 3
          [{ date := ⟨2025, 1, 1⟩, agentName := Val.str "A", division := Val.str "",
              logIn := none, logOut := none, loggedInSeconds := none,
              loggedInDuration := none, answered := 0, inqAmb := 0, outbound := 0,
              inboundBooking := 0, totalAcwSec := 0,
              totalAcwExcel := some ((0 : Rat) / 86400), avgHandleSec := none,
              avgHandleTime := none }]⟩,
        [{ date := ⟨2025, 1, 1⟩, agentName := Val.str "A", division := Val.str "",
              logIn := none, logOut := none, loggedInSeconds := none,
              loggedInDuration := none, answered := 0, inqAmb := 0, outbound := 0,
              inboundBooking := 0, totalAcwSec := 0,
              totalAcwExcel := some ((0 : Rat) / 86400), avgHandleSec := none,
              avgHandleTime := none }]) := by
  rfl

/-- Witness for C8 (amended) on the concrete one-record fill: far-away cells
untouched, row 3 written, the missing logged-in-duration cell left empty by
the clearing pass, the ACW cell written as 0. -/
theorem c8_witness :
    (writeRecs (clearRegion 10 (fun _ _ => CellVal.empty)) 3
        [{ date := ⟨2025, 1, 1⟩, agentName := Val.str "A", division := Val.str "",
              logIn := none, logOut := none, loggedInSeconds := none,
              loggedInDuration := none, answered := 0, inqAmb := 0, outbound := 0,
              inboundBooking := 0, totalAcwSec := 0,
              totalAcwExcel := some ((0 : Rat) / 86400), avgHandleSec := none,
              avgHandleTime := none }]) 50 3 = CellVal.empty
    ∧ (writeRecs (clearRegion 10 (fun _ _ => CellVal.empty)) 3
        [{ date := ⟨2025, 1, 1⟩, agentName := Val.str "A", division := Val.str "",
              logIn := none, logOut := none, loggedInSeconds := none,
              loggedInDuration := none, answered := 0, inqAmb := 0, outbound := 0,
              inboundBooking := 0, totalAcwSec := 0,
              totalAcwExcel := some ((0 : Rat) / 86400), avgHandleSec := none,
              avgHandleTime := none }]) 3 1 = CellVal.datetime ⟨2025, 1, 1⟩ 6 30
    ∧ (writeRecs (clearRegion 10 (fun _ _ => CellVal.empty)) 3
        [{ date := ⟨2025, 1, 1⟩, agentName := Val.str "A", division := Val.str "",
              logIn := none, logOut := none, loggedInSeconds := none,
              loggedInDuration := none, answered := 0, inqAmb := 0, outbound := 0,
              inboundBooking := 0, totalAcwSec := 0,
              totalAcwExcel := some ((0 : Rat) / 86400), avgHandleSec := none,
              avgHandleTime := none }]) 3 6 = CellVal.empty
    ∧ (writeRecs (clearRegion 10 (fun _ _ => CellVal.empty)) 3
        [{ date := ⟨2025, 1, 1⟩, agentName := Val.str "A", division := Val.str "",
              logIn := none, logOut := none, loggedInSeconds := none,
              loggedInDuration := none, answered := 0, inqAmb := 0, outbound := 0,
              inboundBooking := 0, totalAcwSec := 0,
              totalAcwExcel := some ((0 : Rat) / 86400), avgHandleSec := none,
              avgHandleTime := none }]) 3 13 = CellVal.ratv ((0 : Rat) / 86400) := by
  have h := c8_template_writer_frame ⟨2025, 1, 1⟩ ⟨10, fun _ _ => CellVal.empty⟩
    ⟨["Agent Name"], [[("Agent Name", Val.str "A")]]⟩ _ _ c8_eval
  exact ⟨h.2.1 50 3 (by decide), (h.2.2.2.2.1 0 (by decide)).1,
    h.2.2.2.2.2.1 0 (by decide) rfl, h.2.2.2.2.2.2.2 0 (by decide)⟩

end FHD
